import Mathlib

/-!
Verification development for the prosody-util-stanza core: a shallow
embedding, in Lean 4, of the stanza tree model (`src/stanza/tree.rs`), the
attribute-name encoding (`src/stanza/attrstr.rs`), the cursor
(`src/stanza/path.rs`, `src/stanza/stanza.rs`), the XMPP helpers
(`src/stanza/xmpp.rs`) and the byte-fed stream engine
(`src/xmppstream/stream.rs`).

Modelling conventions:
* Rust `Rc<RefCell<Element>>` pointers become indices into an explicit heap
  (a list of elements); pointer equality becomes index equality.
* `usize` arithmetic keeps the source's overflow behaviour: `checked_add`
  is modelled against `usizeMax = 2^64 - 1`, `saturating_sub` is `Nat.sub`.
* The low-level XML reader (the external `rxml` crate) is modelled
  abstractly as a queue of pre-parsed events (each carrying the byte length
  of the source text it covers, as `rxml`'s event metrics do) plus a byte
  buffer; `read` pops an event, an exhausted queue is the WouldBlock
  signal.  The XML name / character-data validators of `rxml` are likewise
  external and are modelled from the XML 1.0 productions the spec cites.
* Recursions that Rust performs over a possibly-cyclic pointer graph
  (cycle scan, protect) take an explicit fuel; fuel exhaustion in the cycle
  scan is treated as conservative evidence of a cycle, matching the
  source's reading of an un-borrowable element.
-/

namespace ProsodyStanza

/-! ## XML validation (modelled from the spec §4.1: the external `rxml`
validators classify names and character data by the XML 1.0 productions) -/

/-- Character set of XML 1.0 §2.2 `Char`. -/
def isXmlChar (c : Char) : Bool :=
  let n := c.toNat
  n = 0x9 || n = 0xA || n = 0xD || (0x20 ≤ n && n ≤ 0xD7FF) ||
    (0xE000 ≤ n && n ≤ 0xFFFD) || (0x10000 ≤ n && n ≤ 0x10FFFF)

/-- XML 1.0 §2.3 production [4] `NameStartChar` (on code points). -/
def isNameStartCharN (n : Nat) : Bool :=
  n = 0x3A || (0x41 ≤ n && n ≤ 0x5A) || n = 0x5F || (0x61 ≤ n && n ≤ 0x7A) ||
    (0xC0 ≤ n && n ≤ 0xD6) || (0xD8 ≤ n && n ≤ 0xF6) ||
    (0xF8 ≤ n && n ≤ 0x2FF) || (0x370 ≤ n && n ≤ 0x37D) ||
    (0x37F ≤ n && n ≤ 0x1FFF) || (0x200C ≤ n && n ≤ 0x200D) ||
    (0x2070 ≤ n && n ≤ 0x218F) || (0x2C00 ≤ n && n ≤ 0x2FEF) ||
    (0x3001 ≤ n && n ≤ 0xD7FF) || (0xF900 ≤ n && n ≤ 0xFDCF) ||
    (0xFDF0 ≤ n && n ≤ 0xFFFD) || (0x10000 ≤ n && n ≤ 0xEFFFF)

/-- XML 1.0 §2.3 production [4a] `NameChar` (on code points). -/
def isNameCharN (n : Nat) : Bool :=
  isNameStartCharN n || n = 0x2D || n = 0x2E || (0x30 ≤ n && n ≤ 0x39) ||
    n = 0xB7 || (0x300 ≤ n && n ≤ 0x36F) || (0x203F ≤ n && n ≤ 0x2040)

/-- `NCName` start character: `NameStartChar` without the colon. -/
def isNCNameStartChar (c : Char) : Bool :=
  isNameStartCharN c.toNat && !(c = ':')

/-- `NCName` trailing character: `NameChar` without the colon. -/
def isNCNameChar (c : Char) : Bool :=
  isNameCharN c.toNat && !(c = ':')

/-- `rxml::NCNameStr` validation: nonempty, NCName production. -/
def isNCName : List Char → Bool
  | [] => false
  | c :: cs => isNCNameStartChar c && cs.all isNCNameChar

/-- `rxml::CDataStr` validation: every code point in the `Char` range. -/
def isCData (s : List Char) : Bool := s.all isXmlChar

/-! ## AttrName (`src/stanza/attrstr.rs`) -/

/-- The single-byte delimiter between namespace URI and local name. -/
def nsDelim : Char := Char.ofNat 1

/-- `XMLNS_XML` from `attrstr.rs`. -/
def xmlnsXmlL : List Char := "http://www.w3.org/XML/1998/namespace".data

/-- `AttrName`: the storage form, either `<local>` or `<nsuri>\x01<local>`. -/
structure AttrName where
  s : List Char
deriving DecidableEq, Repr

/-- `AttrName::compose`. -/
def AttrName.compose (ns : Option (List Char)) (name : List Char) : AttrName :=
  match ns with
  | some ns => ⟨ns ++ nsDelim :: name⟩
  | none => ⟨name⟩

/-- `AttrName::local_only`. -/
def AttrName.localOnly (name : List Char) : AttrName := ⟨name⟩

/-- `AttrName::as_string`: returns the storage form. -/
def AttrName.asString (a : AttrName) : List Char := a.s

/-- Split a list at the first occurrence of `d`: `some (before, after)`
with the delimiter removed, `none` if `d` does not occur.  Models
`str::find` + `split_at` in `AttrName::from_str`. -/
def splitAtFirst (d : Char) : List Char → Option (List Char × List Char)
  | [] => none
  | c :: cs =>
    if c = d then some ([], cs)
    else (splitAtFirst d cs).map (fun p => (c :: p.1, p.2))

/-- `AttrName::from_str` (the `TryFrom<&str>` entry point). -/
def attrNameFromStr (s : List Char) : Except String AttrName :=
  if "xml:".data.isPrefixOf s then
    let localname := s.drop 4
    if isNCName localname then
      .ok (AttrName.compose (some xmlnsXmlL) localname)
    else .error "local name is not well formed"
  else if "xmlns:".data.isPrefixOf s then
    let localname := s.drop 6
    if isNCName localname then .ok ⟨s⟩
    else .error "namespace prefix is not well formed"
  else
    match splitAtFirst nsDelim s with
    | some (nsuri, rest) =>
      -- in the source `remainder` still carries the delimiter, so
      -- `remainder.len() <= 1` means: nothing follows the delimiter
      if rest.length = 0 then
        .error "local name (following \\1 separator) is empty"
      else if !isCData nsuri then .error "nsuri is not well formed"
      else if !isNCName rest then .error "local name is not well formed"
      else .ok (AttrName.compose (some nsuri) rest)
    | none =>
      if isNCName s then .ok (AttrName.localOnly s)
      else .error "local name is not well formed"

theorem splitAtFirst_eq (d : Char) :
    ∀ s a b, splitAtFirst d s = some (a, b) → s = a ++ d :: b := by
  intro s
  induction s with
  | nil => intro a b h; simp [splitAtFirst] at h
  | cons c cs ih =>
    intro a b h
    by_cases hc : c = d
    · rw [splitAtFirst, if_pos hc] at h
      injection h with h
      injection h with h1 h2
      rw [← h1, ← h2, hc]
      rfl
    · rw [splitAtFirst, if_neg hc] at h
      cases hcs : splitAtFirst d cs with
      | none => rw [hcs] at h; simp at h
      | some p =>
        rw [hcs] at h
        simp only [Option.map_some', Option.some.injEq] at h
        obtain ⟨ha, hb⟩ := Prod.mk.injEq .. ▸ h
        have := ih p.1 p.2 (by rw [hcs])
        rw [← ha, ← hb] at *
        simp [this]

/-- C4, amended: the round-trip `as_string ∘ try_from = id` holds for every
accepted key that does not begin with `xml:`; that covers bare local
names, `xmlns:`-prefixed keys (kept verbatim) and `<ns>\x01<local>` keys
(recomposed exactly). -/
theorem attrname_roundtrip_of_not_xml_prefixed (s : List Char) (a : AttrName)
    (hok : attrNameFromStr s = .ok a)
    (hpre : "xml:".data.isPrefixOf s = false) :
    a.asString = s := by
  unfold attrNameFromStr at hok
  rw [hpre] at hok
  simp only [Bool.false_eq_true, if_false] at hok
  by_cases hx : "xmlns:".data.isPrefixOf s
  · simp only [hx, if_true] at hok
    by_cases hn : isNCName (s.drop 6)
    · simp [hn] at hok
      simp [← hok, AttrName.asString]
    · simp [hn] at hok
  · simp only [hx, Bool.false_eq_true, if_false] at hok
    cases hsplit : splitAtFirst nsDelim s with
    | some p =>
      obtain ⟨nsuri, rest⟩ := p
      rw [hsplit] at hok
      by_cases h0 : rest.length = 0
      · simp [h0] at hok
      · simp only [h0, if_false] at hok
        by_cases hcd : isCData nsuri
        · by_cases hnc : isNCName rest
          · simp [hcd, hnc] at hok
            have hs := splitAtFirst_eq nsDelim s nsuri rest hsplit
            simp [← hok, AttrName.asString, AttrName.compose, hs]
          · simp [hcd, hnc] at hok
        · simp [hcd] at hok
    | none =>
      rw [hsplit] at hok
      by_cases hn : isNCName s
      · simp [hn] at hok
        simp [← hok, AttrName.asString, AttrName.localOnly]
      · simp [hn] at hok

/-- Witness for the amended C4 theorem at the concrete accepted key
`xmlns:stream`. -/
theorem attrname_roundtrip_witness :
    attrNameFromStr "xmlns:stream".data = .ok ⟨"xmlns:stream".data⟩ ∧
      AttrName.asString ⟨"xmlns:stream".data⟩ = "xmlns:stream".data :=
  ⟨by rfl, attrname_roundtrip_of_not_xml_prefixed "xmlns:stream".data
    ⟨"xmlns:stream".data⟩ (by rfl) (by decide)⟩

/-- C4, counterexample: `xml:lang` is accepted by `AttrName::try_from` but
is stored as `http://www.w3.org/XML/1998/namespace\x01lang`, and
`as_string` returns that storage form, not `xml:lang` — the claimed
round-trip identity fails on keys beginning with `xml:`. -/
theorem attrname_roundtrip_fails_on_xml_prefixed_key :
    attrNameFromStr "xml:lang".data =
      .ok ⟨xmlnsXmlL ++ nsDelim :: "lang".data⟩ ∧
    AttrName.asString ⟨xmlnsXmlL ++ nsDelim :: "lang".data⟩ ≠
      "xml:lang".data := by
  constructor
  · rfl
  · decide

/-! ## Element tree (`src/stanza/tree.rs`)

`Rc<RefCell<Element>>` handles become indices into a `Heap` (a list of
elements, allocation appends); `ElementPtr::ptr_eq` becomes index equality.
During `push`/`map_elements` exactly one element (the mutation target) is
mutably borrowed; the cycle scan receives that index as the borrowed one. -/

/-- `usize::MAX` (the source is built for 64-bit targets). -/
def usizeMax : Nat := 2 ^ 64 - 1

inductive InsertError where
  | NodeHasParent
  | NodeIsSelf
  | LoopDetected
  | Protected
deriving DecidableEq, Repr

inductive MapElementsError (T : Type) where
  | Structural (e : InsertError)
  | External (t : T)
deriving DecidableEq, Repr

/-- A child node: text, or a heap reference to an element. -/
inductive Node where
  | text (s : String)
  | elem (id : Nat)
deriving DecidableEq, Repr

def Node.asElemId : Node → Option Nat
  | .elem i => some i
  | .text _ => none

def Node.asText : Node → Option String
  | .text s => some s
  | .elem _ => none

/-- `Children`: the mixed node list plus the element-index list. -/
structure Children where
  all : List Node
  element_indices : List Nat
deriving DecidableEq, Repr

def Children.new : Children := ⟨[], []⟩

/-- `Children::push`: an element child also records its index. -/
def Children.push (c : Children) (n : Node) : Children :=
  match n with
  | .elem _ => ⟨c.all ++ [n], c.element_indices ++ [c.all.length]⟩
  | .text _ => ⟨c.all ++ [n], c.element_indices⟩

/-- `ElementView::len`. -/
def Children.viewLen (c : Children) : Nat := c.element_indices.length

/-- `ElementView::get_index`. -/
def Children.viewGetIndex (c : Children) (i : Nat) : Option Nat :=
  c.element_indices.get? i

/-- `ElementView::get`. -/
def Children.viewGet (c : Children) (i : Nat) : Option Nat := do
  let index ← c.viewGetIndex i
  (← c.all.get? index).asElemId

/-- `Children::iter_children` (the element-only iterator, which walks
`element_indices`); `unwrap` on a desynced index is modelled by skipping,
which agrees with the source on every well-formed child list. -/
def Children.elemIds (c : Children) : List Nat :=
  c.element_indices.filterMap (fun i => (c.all.get? i).bind Node.asElemId)

/-- The element ids among all child nodes (used by the cycle scan and
`protect`, which iterate the full node slice). -/
def Children.allElemIds (c : Children) : List Nat :=
  c.all.filterMap Node.asElemId

/-- Attribute maps: `HashMap<AttrName, String>` modelled as an association
list with `insert`-replaces-existing semantics (iteration order is never
relied upon by the embedded operations). Keys use the `AttrName` storage
form as a plain string. -/
abbrev AttrMap := List (String × String)

def AttrMap.get (m : AttrMap) (k : String) : Option String :=
  (List.find? (fun p => p.1 = k) m).map (fun p => p.2)

def AttrMap.insert (m : AttrMap) (k v : String) : AttrMap :=
  if List.any m (fun p => p.1 = k) then
    List.map (fun p => if p.1 = k then (k, v) else p) m
  else m ++ [(k, v)]

def AttrMap.nil : AttrMap := []

structure Element where
  nsuri : Option String
  localname : String
  attr : AttrMap
  children : Children
  protectedFlag : Bool
deriving DecidableEq, Repr

/-- `Element::raw_new_with_attr`. -/
def Element.rawNewWithAttr (nsuri : Option String) (name : String)
    (attr : AttrMap) : Element :=
  ⟨nsuri, name, attr, Children.new, false⟩

def Element.pushNode (el : Element) (n : Node) : Element :=
  { el with children := el.children.push n }

instance : Inhabited Element := ⟨Element.rawNewWithAttr none "" AttrMap.nil⟩

/-- The element heap: `Rc` cells, addressed by allocation index. -/
structure Heap where
  elems : List Element
deriving DecidableEq, Repr

def Heap.size (h : Heap) : Nat := h.elems.length

/-- Dereference a handle.  A dangling index (impossible through the API)
yields the default empty element. -/
def Heap.getEl (h : Heap) (id : Nat) : Element :=
  (h.elems.get? id).getD default

def Heap.set (h : Heap) (id : Nat) (el : Element) : Heap :=
  ⟨h.elems.set id el⟩

/-- Allocation: `ElementPtr::wrap` of a fresh element. -/
def Heap.alloc (h : Heap) (el : Element) : Heap × Nat :=
  (⟨h.elems ++ [el]⟩, h.elems.length)

def emptyHeap : Heap := ⟨[]⟩

/-- `ElementPtr::new_with_attr`: allocate a fresh free-standing element. -/
def newElementOp (h : Heap) (nsuri : Option String) (name : String)
    (attr : AttrMap) : Heap × Nat :=
  h.alloc (Element.rawNewWithAttr nsuri name attr)

/-- `Element::tag`: allocate a child (inheriting `protected`), append it
unchecked.  Cannot fail. -/
def tagOp (h : Heap) (parent : Nat) (xmlns : Option String) (name : String)
    (attr : AttrMap) : Heap × Nat :=
  let newEl : Element :=
    { Element.rawNewWithAttr xmlns name attr with
        protectedFlag := (h.getEl parent).protectedFlag }
  let (h1, newId) := h.alloc newEl
  (h1.set parent ((h1.getEl parent).pushNode (Node.elem newId)), newId)

/-- `Element::text`: append a text node. -/
def textOp (h : Heap) (parent : Nat) (s : String) : Heap :=
  h.set parent ((h.getEl parent).pushNode (Node.text s))

/-- `Element::deep_reverse_insert_check`, specialised to the single
mutably-borrowed element `borrowed` (the insertion target): scan the node
list; an element child equal to `borrowed` cannot be borrowed, which is
taken as evidence of a cycle; otherwise recurse into it.  `fuel` bounds the
recursion depth; running out (possible only on a cyclic heap, where the
source would not terminate) is likewise treated as a detected loop. -/
def deepCheckList (h : Heap) (borrowed : Nat) :
    Nat → List Node → Except InsertError Unit
  | _, [] => .ok ()
  | fuel, .text _ :: rest => deepCheckList h borrowed fuel rest
  -- with no fuel left: an element child equal to the borrowed target is a
  -- real loop detection, and fuel exhaustion (a cyclic heap, on which the
  -- source recursion would not terminate) is the conservative same answer
  | 0, .elem _ :: _ => .error .LoopDetected
  | fuel + 1, .elem cid :: rest =>
    if cid = borrowed then .error .LoopDetected
    else
      match deepCheckList h borrowed fuel (h.getEl cid).children.all with
      | .error e => .error e
      | .ok () => deepCheckList h borrowed (fuel + 1) rest
termination_by fuel nodes => (fuel, nodes.length)

/-- `Element::check_insert` (`self` is the mutably borrowed target). -/
def checkInsert (h : Heap) (selfId el : Nat) : Except InsertError Unit :=
  if el = selfId then .error .NodeIsSelf
  else if (h.getEl el).protectedFlag then .ok ()
  else deepCheckList h selfId (h.size + 1) (h.getEl el).children.all

/-- `Element::push`.  On failure the heap is returned untouched, mirroring
the early returns of the source. -/
def pushOp (h : Heap) (selfId : Nat) (n : Node) :
    Except InsertError Unit × Heap :=
  if (h.getEl selfId).protectedFlag then (.error .Protected, h)
  else
    match n with
    | .elem el =>
      match checkInsert h selfId el with
      | .error e => (.error e, h)
      | .ok () => (.ok (), h.set selfId ((h.getEl selfId).pushNode n))
    | .text _ => (.ok (), h.set selfId ((h.getEl selfId).pushNode n))

/-- The loop body of `Element::map_elements`: rebuild the child list,
applying `f` to element children; a substitution that is not pointer-equal
must pass `check_insert` against the (unchanged) parent. -/
def mapElemsGo {T : Type} (h : Heap) (selfId : Nat)
    (f : Nat → Except T (Option Nat)) :
    List Node → Children → Except (MapElementsError T) Children
  | [], acc => .ok acc
  | .text s :: rest, acc => mapElemsGo h selfId f rest (acc.push (.text s))
  | .elem el :: rest, acc =>
    match f el with
    | .error e => .error (.External e)
    | .ok none => mapElemsGo h selfId f rest acc
    | .ok (some newEl) =>
      if newEl = el then mapElemsGo h selfId f rest (acc.push (.elem newEl))
      else
        match checkInsert h selfId newEl with
        | .error e => .error (.Structural e)
        | .ok () => mapElemsGo h selfId f rest (acc.push (.elem newEl))

/-- `Element::map_elements`. -/
def mapElementsOp {T : Type} (h : Heap) (selfId : Nat)
    (f : Nat → Except T (Option Nat)) :
    Except (MapElementsError T) Unit × Heap :=
  if (h.getEl selfId).protectedFlag then (.error (.Structural .Protected), h)
  else
    match mapElemsGo h selfId f (h.getEl selfId).children.all Children.new with
    | .error e => (.error e, h)
    | .ok newChildren =>
      (.ok (), h.set selfId { h.getEl selfId with children := newChildren })

/-- `Element::get_text`: `none` if there are element children, otherwise
the concatenation of the text nodes (which, on a well-formed child list,
are all the nodes). -/
def getTextOp (h : Heap) (id : Nat) : Option String :=
  if (h.getEl id).children.element_indices.length > 0 then none
  else some (String.join ((h.getEl id).children.all.filterMap Node.asText))

/-- `Element::protect` / `protect_rec`: recursively set `protected` on the
subtree (children first, then the element itself).  `fuel` bounds recursion
depth; the `ProtectError` result of the source is never produced and is
omitted. -/
def protectRec : Nat → Heap → Nat → Heap
  | 0, h, _ => h
  | fuel + 1, h, id =>
    let h' := (h.getEl id).children.allElemIds.foldl
      (fun acc cid => protectRec fuel acc cid) h
    h'.set id { h'.getEl id with protectedFlag := true }

/-- Heap well-formedness for the reachability arguments: `rank` witnesses
acyclicity of the element graph, and child references stay in range. -/
def HeapWF (h : Heap) (rank : Nat → Nat) : Prop :=
  ∀ id, id < h.size → ∀ c ∈ (h.getEl id).children.allElemIds,
    c < h.size ∧ rank c < rank id

/-! ### Heap access lemmas -/

theorem Heap.getEl_set_self (h : Heap) (id : Nat) (el : Element)
    (hid : id < h.size) : (h.set id el).getEl id = el := by
  simp only [Heap.set, Heap.getEl, List.get?_eq_getElem?]
  rw [List.getElem?_set_self hid]
  rfl

theorem Heap.getEl_set_ne (h : Heap) (id j : Nat) (el : Element)
    (hne : j ≠ id) : (h.set id el).getEl j = h.getEl j := by
  simp only [Heap.set, Heap.getEl, List.get?_eq_getElem?]
  rw [List.getElem?_set_ne (Ne.symm hne)]

theorem Heap.size_set (h : Heap) (id : Nat) (el : Element) :
    (h.set id el).size = h.size := by
  simp [Heap.set, Heap.size]

theorem Heap.getEl_alloc_new (h : Heap) (el : Element) :
    (h.alloc el).1.getEl h.size = el := by
  simp only [Heap.alloc, Heap.getEl, Heap.size, List.get?_eq_getElem?]
  rw [List.getElem?_concat_length]
  rfl

theorem Heap.getEl_alloc_old (h : Heap) (el : Element) (j : Nat)
    (hj : j < h.size) : (h.alloc el).1.getEl j = h.getEl j := by
  simp only [Heap.alloc, Heap.getEl, Heap.size, List.get?_eq_getElem?] at *
  rw [List.getElem?_append_left hj]

theorem Heap.size_alloc (h : Heap) (el : Element) :
    (h.alloc el).1.size = h.size + 1 := by
  simp [Heap.alloc, Heap.size]

theorem tagOp_snd (h : Heap) (p : Nat) (ns : Option String) (name : String)
    (attr : AttrMap) : (tagOp h p ns name attr).2 = h.size := rfl

theorem tagOp_size (h : Heap) (p : Nat) (ns : Option String) (name : String)
    (attr : AttrMap) : (tagOp h p ns name attr).1.size = h.size + 1 := by
  simp [tagOp, Heap.size_set, Heap.size_alloc]

theorem tagOp_getEl_parent (h : Heap) (p : Nat) (ns : Option String)
    (name : String) (attr : AttrMap) (hp : p < h.size) :
    (tagOp h p ns name attr).1.getEl p =
      (h.getEl p).pushNode (Node.elem h.size) := by
  have hp' : p < (h.alloc { Element.rawNewWithAttr ns name attr with
      protectedFlag := (h.getEl p).protectedFlag }).1.size := by
    rw [Heap.size_alloc]; omega
  simp only [tagOp]
  rw [Heap.getEl_set_self _ _ _ hp', Heap.getEl_alloc_old _ _ _ hp]
  rfl

theorem tagOp_getEl_child (h : Heap) (p : Nat) (ns : Option String)
    (name : String) (attr : AttrMap) (hp : p < h.size) :
    (tagOp h p ns name attr).1.getEl h.size =
      { Element.rawNewWithAttr ns name attr with
          protectedFlag := (h.getEl p).protectedFlag } := by
  have hps : h.size ≠ p := (Nat.ne_of_lt hp).symm
  simp only [tagOp]
  rw [Heap.getEl_set_ne _ _ _ _ hps, Heap.getEl_alloc_new]

theorem tagOp_getEl_other (h : Heap) (p j : Nat) (ns : Option String)
    (name : String) (attr : AttrMap) (hj : j < h.size) (hjp : j ≠ p) :
    (tagOp h p ns name attr).1.getEl j = h.getEl j := by
  simp only [tagOp]
  rw [Heap.getEl_set_ne _ _ _ _ hjp, Heap.getEl_alloc_old _ _ _ hj]

/-! ### The cycle scan always answers LoopDetected when the borrowed
element occurs among the scanned nodes -/

theorem deepCheckList_error_eq (h : Heap) (b : Nat) :
    ∀ fuel nodes e, deepCheckList h b fuel nodes = .error e →
      e = InsertError.LoopDetected := by
  intro fuel
  induction fuel with
  | zero =>
    intro nodes
    induction nodes with
    | nil => intro e he; simp [deepCheckList] at he
    | cons n rest ih =>
      intro e he
      cases n with
      | text s => rw [deepCheckList] at he; exact ih e he
      | elem cid =>
        rw [deepCheckList] at he
        exact ((Except.error.injEq ..).mp he).symm
  | succ f ihf =>
    intro nodes
    induction nodes with
    | nil => intro e he; simp [deepCheckList] at he
    | cons n rest ih =>
      intro e he
      cases n with
      | text s => rw [deepCheckList] at he; exact ih e he
      | elem cid =>
        rw [deepCheckList] at he
        by_cases hb : cid = b
        · rw [if_pos hb] at he
          exact ((Except.error.injEq ..).mp he).symm
        · rw [if_neg hb] at he
          cases hch : deepCheckList h b f (h.getEl cid).children.all with
          | error ech =>
            rw [hch] at he
            exact ((Except.error.injEq ..).mp he) ▸ ihf _ ech hch
          | ok u =>
            cases u
            rw [hch] at he
            exact ih e he

theorem deepCheckList_ne_ok_of_mem (h : Heap) (b : Nat) :
    ∀ fuel nodes, Node.elem b ∈ nodes →
      deepCheckList h b fuel nodes ≠ .ok () := by
  intro fuel
  induction fuel with
  | zero =>
    intro nodes
    induction nodes with
    | nil => intro hm; simp at hm
    | cons n rest ih =>
      intro hm
      cases n with
      | text s =>
        rw [deepCheckList]
        exact ih (by simpa using hm)
      | elem cid => rw [deepCheckList]; simp
  | succ f ihf =>
    intro nodes
    induction nodes with
    | nil => intro hm; simp at hm
    | cons n rest ih =>
      intro hm
      cases n with
      | text s =>
        rw [deepCheckList]
        exact ih (by simpa using hm)
      | elem cid =>
        rw [deepCheckList]
        by_cases hb : cid = b
        · rw [if_pos hb]; simp
        · rw [if_neg hb]
          have hm' : Node.elem b ∈ rest := by
            rcases List.mem_cons.mp hm with he | hr
            · exact absurd (by injection he with hh; exact hh.symm) hb
            · exact hr
          cases hch : deepCheckList h b f (h.getEl cid).children.all with
          | error ech => simp
          | ok u => cases u; exact ih hm'

theorem deepCheckList_loop_of_mem (h : Heap) (b fuel : Nat)
    (nodes : List Node) (hm : Node.elem b ∈ nodes) :
    deepCheckList h b fuel nodes = .error .LoopDetected := by
  cases hres : deepCheckList h b fuel nodes with
  | error e => rw [deepCheckList_error_eq h b fuel nodes e hres]
  | ok u =>
    cases u
    exact absurd hres (deepCheckList_ne_ok_of_mem h b fuel nodes hm)

theorem checkInsert_loop (h : Heap) (selfId el : Nat)
    (hne : el ≠ selfId) (hunprot : (h.getEl el).protectedFlag = false)
    (hm : Node.elem selfId ∈ (h.getEl el).children.all) :
    checkInsert h selfId el = .error .LoopDetected := by
  rw [checkInsert, if_neg hne, hunprot]
  simp only [Bool.false_eq_true, if_false]
  exact deepCheckList_loop_of_mem h selfId (h.size + 1) _ hm

theorem Element.pushNode_flag (el : Element) (n : Node) :
    (el.pushNode n).protectedFlag = el.protectedFlag := rfl

theorem Element.pushNode_all (el : Element) (n : Node) :
    (el.pushNode n).children.all = el.children.all ++ [n] := by
  cases n <;> rfl

/-- C2: for every unprotected element P (in a well-formed heap) and the
child C created by `P.tag(...)`, pushing P under C fails with
`LoopDetected`, substituting P for the non-pointer-equal child of C in
`C.map_elements` fails with `LoopDetected`, and pushing C into C itself
fails with `NodeIsSelf`; in each failure the heap — in particular the
target's child list — is left unchanged. -/
theorem insert_cycle_and_self_rejected (h : Heap) (rank : Nat → Nat)
    (p : Nat) (ns dns : Option String) (name dname : String)
    (attr dattr : AttrMap) (hwf : HeapWF h rank) (hp : p < h.size)
    (hunprot : (h.getEl p).protectedFlag = false) :
    (pushOp (tagOp h p ns name attr).1 (tagOp h p ns name attr).2
        (Node.elem p)).1 = .error .LoopDetected ∧
    (pushOp (tagOp h p ns name attr).1 (tagOp h p ns name attr).2
        (Node.elem p)).2 = (tagOp h p ns name attr).1 ∧
    (pushOp (tagOp h p ns name attr).1 (tagOp h p ns name attr).2
        (Node.elem (tagOp h p ns name attr).2)).1 = .error .NodeIsSelf ∧
    (pushOp (tagOp h p ns name attr).1 (tagOp h p ns name attr).2
        (Node.elem (tagOp h p ns name attr).2)).2 =
      (tagOp h p ns name attr).1 ∧
    (mapElementsOp (T := Unit)
        (tagOp (tagOp h p ns name attr).1 (tagOp h p ns name attr).2
          dns dname dattr).1
        (tagOp h p ns name attr).2 (fun _ => .ok (some p))).1 =
      .error (.Structural .LoopDetected) ∧
    (mapElementsOp (T := Unit)
        (tagOp (tagOp h p ns name attr).1 (tagOp h p ns name attr).2
          dns dname dattr).1
        (tagOp h p ns name attr).2 (fun _ => .ok (some p))).2 =
      (tagOp (tagOp h p ns name attr).1 (tagOp h p ns name attr).2
        dns dname dattr).1 := by
  have hc2 : (tagOp h p ns name attr).2 = h.size := rfl
  set h1 := (tagOp h p ns name attr).1 with hh1
  rw [hc2]
  have hpc : p ≠ h.size := Nat.ne_of_lt hp
  have hcflag : (h1.getEl h.size).protectedFlag = false := by
    rw [hh1, tagOp_getEl_child h p ns name attr hp]
    exact hunprot
  have hpar : h1.getEl p = (h.getEl p).pushNode (Node.elem h.size) := by
    rw [hh1]; exact tagOp_getEl_parent h p ns name attr hp
  have hpflag1 : (h1.getEl p).protectedFlag = false := by
    rw [hpar, Element.pushNode_flag]; exact hunprot
  have hmem1 : Node.elem h.size ∈ (h1.getEl p).children.all := by
    rw [hpar, Element.pushNode_all]
    exact List.mem_append_right _ (List.mem_singleton.mpr rfl)
  have hchk : checkInsert h1 h.size p = .error .LoopDetected :=
    checkInsert_loop h1 h.size p hpc hpflag1 hmem1
  have hpush1 : pushOp h1 h.size (Node.elem p) =
      (.error .LoopDetected, h1) := by
    rw [pushOp, hcflag]
    simp only [Bool.false_eq_true, if_false]
    rw [hchk]
  have hself : pushOp h1 h.size (Node.elem h.size) =
      (.error .NodeIsSelf, h1) := by
    rw [pushOp, hcflag]
    simp only [Bool.false_eq_true, if_false]
    rw [checkInsert, if_pos rfl]
  -- the map_elements part: give C one (fresh, non-pointer-equal) child D
  set h2 := (tagOp h1 h.size dns dname dattr).1 with hh2
  have hcsz : h.size < h1.size := by
    rw [hh1, tagOp_size]; omega
  have hcchild : h1.getEl h.size =
      { Element.rawNewWithAttr ns name attr with
          protectedFlag := (h.getEl p).protectedFlag } := by
    rw [hh1]; exact tagOp_getEl_child h p ns name attr hp
  have hc2all : (h2.getEl h.size).children.all = [Node.elem h1.size] := by
    rw [hh2, tagOp_getEl_parent h1 h.size dns dname dattr hcsz,
      Element.pushNode_all, hcchild]
    rfl
  have hc2flag : (h2.getEl h.size).protectedFlag = false := by
    rw [hh2, tagOp_getEl_parent h1 h.size dns dname dattr hcsz,
      Element.pushNode_flag]
    exact hcflag
  have hp2 : h2.getEl p = h1.getEl p := by
    rw [hh2]
    exact tagOp_getEl_other h1 h.size p dns dname dattr
      (Nat.lt_trans hp hcsz) hpc
  have hpd : p ≠ h1.size := Nat.ne_of_lt (Nat.lt_trans hp hcsz)
  have hchk2 : checkInsert h2 h.size p = .error .LoopDetected := by
    refine checkInsert_loop h2 h.size p hpc ?_ ?_
    · rw [hp2]; exact hpflag1
    · rw [hp2]; exact hmem1
  have hmap : mapElementsOp (T := Unit) h2 h.size
      (fun _ => .ok (some p)) =
      (.error (.Structural .LoopDetected), h2) := by
    rw [mapElementsOp, hc2flag]
    simp only [Bool.false_eq_true, if_false]
    rw [hc2all]
    simp only [mapElemsGo, if_neg hpd, hchk2]
  exact ⟨by rw [hpush1], by rw [hpush1], by rw [hself], by rw [hself],
    by rw [hmap], by rw [hmap]⟩

/-- A one-element heap (a free-standing unprotected `<message/>`) used by
concrete witnesses. -/
def witnessHeap1 : Heap :=
  ⟨[Element.rawNewWithAttr none "message" AttrMap.nil]⟩

/-- Witness for C2 at a concrete one-element heap. -/
theorem insert_cycle_and_self_rejected_witness :
    (pushOp (tagOp witnessHeap1 0 none "body" AttrMap.nil).1
        (tagOp witnessHeap1 0 none "body" AttrMap.nil).2
        (Node.elem 0)).1 = .error .LoopDetected ∧
    (pushOp (tagOp witnessHeap1 0 none "body" AttrMap.nil).1
        (tagOp witnessHeap1 0 none "body" AttrMap.nil).2
        (Node.elem 0)).2 = (tagOp witnessHeap1 0 none "body" AttrMap.nil).1 ∧
    (pushOp (tagOp witnessHeap1 0 none "body" AttrMap.nil).1
        (tagOp witnessHeap1 0 none "body" AttrMap.nil).2
        (Node.elem (tagOp witnessHeap1 0 none "body" AttrMap.nil).2)).1 =
      .error .NodeIsSelf ∧
    (pushOp (tagOp witnessHeap1 0 none "body" AttrMap.nil).1
        (tagOp witnessHeap1 0 none "body" AttrMap.nil).2
        (Node.elem (tagOp witnessHeap1 0 none "body" AttrMap.nil).2)).2 =
      (tagOp witnessHeap1 0 none "body" AttrMap.nil).1 ∧
    (mapElementsOp (T := Unit)
        (tagOp (tagOp witnessHeap1 0 none "body" AttrMap.nil).1
          (tagOp witnessHeap1 0 none "body" AttrMap.nil).2
          none "delay" AttrMap.nil).1
        (tagOp witnessHeap1 0 none "body" AttrMap.nil).2
        (fun _ => .ok (some 0))).1 = .error (.Structural .LoopDetected) ∧
    (mapElementsOp (T := Unit)
        (tagOp (tagOp witnessHeap1 0 none "body" AttrMap.nil).1
          (tagOp witnessHeap1 0 none "body" AttrMap.nil).2
          none "delay" AttrMap.nil).1
        (tagOp witnessHeap1 0 none "body" AttrMap.nil).2
        (fun _ => .ok (some 0))).2 =
      (tagOp (tagOp witnessHeap1 0 none "body" AttrMap.nil).1
        (tagOp witnessHeap1 0 none "body" AttrMap.nil).2
        none "delay" AttrMap.nil).1 :=
  insert_cycle_and_self_rejected witnessHeap1 (fun _ => 0) 0 none none
    "body" "delay" AttrMap.nil AttrMap.nil
    (by intro id hid c hc; simp [witnessHeap1, Heap.size] at hid
        simp [witnessHeap1, Heap.getEl, Element.rawNewWithAttr, hid,
          Children.new, Children.allElemIds] at hc)
    (by simp [witnessHeap1, Heap.size])
    (by simp [witnessHeap1, Heap.getEl, Element.rawNewWithAttr])

/-! ### Well-formedness of the element-index list (claim C8) -/

/-- Does position `i` of the node list hold an element? -/
def isElemAt (l : List Node) (i : Nat) : Bool :=
  match l.get? i with
  | some (.elem _) => true
  | _ => false

/-- The invariant tying `element_indices` to the mixed node list: it is
exactly the (increasing) list of positions holding elements. -/
def ChildrenWF (c : Children) : Prop :=
  c.element_indices = (List.range c.all.length).filter (isElemAt c.all)

theorem childrenWF_new : ChildrenWF Children.new := rfl

theorem isElemAt_append_left (l : List Node) (a : Node) (i : Nat)
    (hi : i < l.length) : isElemAt (l ++ [a]) i = isElemAt l i := by
  simp only [isElemAt, List.get?_eq_getElem?]
  rw [List.getElem?_append_left hi]

theorem isElemAt_append_right (l : List Node) (a : Node) :
    isElemAt (l ++ [a]) l.length = match a with
      | .elem _ => true
      | .text _ => false := by
  simp only [isElemAt, List.get?_eq_getElem?]
  rw [List.getElem?_concat_length]
  cases a <;> rfl

theorem filter_isElemAt_append (l : List Node) (a : Node) :
    (List.range l.length).filter (isElemAt (l ++ [a])) =
      (List.range l.length).filter (isElemAt l) := by
  apply List.filter_congr
  intro i hi
  exact isElemAt_append_left l a i (List.mem_range.mp hi)

theorem childrenWF_push (c : Children) (n : Node) (hwf : ChildrenWF c) :
    ChildrenWF (c.push n) := by
  cases n with
  | elem e =>
    show c.element_indices ++ [c.all.length] =
      (List.range (c.all ++ [Node.elem e]).length).filter
        (isElemAt (c.all ++ [Node.elem e]))
    rw [List.length_append, List.length_singleton, List.range_succ,
      List.filter_append, filter_isElemAt_append, ← hwf]
    simp [isElemAt_append_right]
  | text s =>
    show c.element_indices =
      (List.range (c.all ++ [Node.text s]).length).filter
        (isElemAt (c.all ++ [Node.text s]))
    rw [List.length_append, List.length_singleton, List.range_succ,
      List.filter_append, filter_isElemAt_append, ← hwf]
    simp [isElemAt_append_right]

/-- The indices of a well-formed child list are strictly increasing. -/
theorem childrenWF_sorted (c : Children) (hwf : ChildrenWF c) :
    c.element_indices.Pairwise (· < ·) := by
  rw [hwf]
  exact (List.pairwise_lt_range _).sublist (List.filter_sublist _)

theorem childrenWF_mem_lt (c : Children) (hwf : ChildrenWF c) (j : Nat)
    (hj : j ∈ c.element_indices) : j < c.all.length := by
  rw [hwf] at hj
  exact List.mem_range.mp (List.mem_of_mem_filter hj)

/-- Every recorded index points at an element node. -/
theorem childrenWF_isElem (c : Children) (hwf : ChildrenWF c) (j : Nat)
    (hj : j ∈ c.element_indices) :
    ∃ e, c.all.get? j = some (Node.elem e) := by
  rw [hwf] at hj
  have := List.of_mem_filter hj
  revert this
  rw [isElemAt]
  cases hg : c.all.get? j with
  | none => intro hf; exact absurd hf (by simp)
  | some n =>
    cases n with
    | text s => intro hf; exact absurd hf (by simp)
    | elem e => intro _; exact ⟨e, rfl⟩

/-- `ElementView::get` produces exactly the element stored at the mapped-
back position of the mixed child list. -/
theorem childrenWF_viewGet (c : Children) (hwf : ChildrenWF c) (i j : Nat)
    (hij : c.viewGetIndex i = some j) :
    ∃ e, c.all.get? j = some (Node.elem e) ∧ c.viewGet i = some e := by
  have hj : j ∈ c.element_indices :=
    List.get?_mem (by exact hij)
  obtain ⟨e, he⟩ := childrenWF_isElem c hwf j hj
  refine ⟨e, he, ?_⟩
  have he' : c.all[j]? = some (Node.elem e) := by
    rw [← List.get?_eq_getElem?]; exact he
  rw [Children.viewGet, hij]
  simp [he', Node.asElemId]

theorem filterMap_get?_stable (l : List Node) (a : Node)
    (g : Node → Option Nat) :
    ∀ js : List Nat, (∀ j ∈ js, j < l.length) →
      js.filterMap (fun j => ((l ++ [a]).get? j).bind g) =
        js.filterMap (fun j => (l.get? j).bind g) := by
  intro js
  induction js with
  | nil => intro _; rfl
  | cons j rest ih =>
    intro hb
    have hj : j < l.length := hb j (List.mem_cons_self j rest)
    rw [List.filterMap_cons, List.filterMap_cons]
    have ih' := ih (fun x hx => hb x (List.mem_cons_of_mem j hx))
    simp only [List.get?_eq_getElem?] at ih'
    simp only [List.get?_eq_getElem?, List.getElem?_append_left hj]
    rw [ih']

/-- On a well-formed child list, walking `element_indices` through the
mixed list yields exactly the element children, in order. -/
theorem childrenWF_subseq (c : Children) (hwf : ChildrenWF c) :
    c.elemIds = c.allElemIds := by
  rw [Children.elemIds, Children.allElemIds, hwf]
  generalize c.all = l
  induction l using List.reverseRecOn with
  | nil => rfl
  | append_singleton l a ih =>
    rw [List.length_append, List.length_singleton, List.range_succ,
      List.filter_append, List.filterMap_append, filter_isElemAt_append,
      List.filterMap_append]
    rw [filterMap_get?_stable l a Node.asElemId _
      (fun j hj => List.mem_range.mp (List.mem_of_mem_filter hj))]
    rw [ih]
    congr 1
    cases a with
    | text s =>
      simp [isElemAt_append_right, Node.asElemId]
    | elem e =>
      simp only [List.filter_singleton, isElemAt_append_right]
      simp only [List.filterMap_cons, List.filterMap_nil,
        List.get?_eq_getElem?, List.getElem?_concat_length]
      simp [Node.asElemId]

/-! ### Heap-wide invariant and reachable heaps -/

/-- Every element (dangling references read as the default, empty element)
has a well-formed child list. -/
def HeapChildrenWF (h : Heap) : Prop :=
  ∀ id, ChildrenWF (h.getEl id).children

theorem Heap.set_oob (h : Heap) (id : Nat) (el : Element)
    (hid : h.size ≤ id) : h.set id el = h := by
  simp only [Heap.set, Heap.size] at *
  rw [List.set_eq_of_length_le hid]

theorem Heap.getEl_alloc_beyond (h : Heap) (el : Element) (j : Nat)
    (hj : h.size + 1 ≤ j) : (h.alloc el).1.getEl j = default := by
  simp only [Heap.alloc, Heap.getEl, Heap.size, List.get?_eq_getElem?] at *
  rw [List.getElem?_eq_none (by simpa using hj)]
  rfl

theorem heapChildrenWF_empty : HeapChildrenWF emptyHeap := by
  intro id
  exact childrenWF_new

theorem heapChildrenWF_alloc (h : Heap) (el : Element)
    (hh : HeapChildrenWF h) (hel : ChildrenWF el.children) :
    HeapChildrenWF (h.alloc el).1 := by
  intro j
  by_cases hj : j < h.size
  · rw [Heap.getEl_alloc_old _ _ _ hj]; exact hh j
  · by_cases hje : j = h.size
    · subst hje; rw [Heap.getEl_alloc_new]; exact hel
    · rw [Heap.getEl_alloc_beyond _ _ _ (by omega)]
      exact childrenWF_new

theorem heapChildrenWF_set (h : Heap) (id : Nat) (el : Element)
    (hh : HeapChildrenWF h) (hel : ChildrenWF el.children) :
    HeapChildrenWF (h.set id el) := by
  intro j
  by_cases hji : j = id
  · subst hji
    by_cases hid : j < h.size
    · rw [Heap.getEl_set_self _ _ _ hid]; exact hel
    · rw [Heap.set_oob _ _ _ (by omega)]; exact hh j
  · rw [Heap.getEl_set_ne _ _ _ _ hji]; exact hh j

theorem heapChildrenWF_newElementOp (h : Heap) (ns : Option String)
    (name : String) (a : AttrMap) (hh : HeapChildrenWF h) :
    HeapChildrenWF (newElementOp h ns name a).1 :=
  heapChildrenWF_alloc h _ hh childrenWF_new

theorem heapChildrenWF_tagOp (h : Heap) (p : Nat) (ns : Option String)
    (name : String) (a : AttrMap) (hh : HeapChildrenWF h) :
    HeapChildrenWF (tagOp h p ns name a).1 := by
  rw [tagOp]
  have h1wf : HeapChildrenWF (h.alloc { Element.rawNewWithAttr ns name a with
      protectedFlag := (h.getEl p).protectedFlag }).1 :=
    heapChildrenWF_alloc h _ hh childrenWF_new
  exact heapChildrenWF_set _ _ _ h1wf (childrenWF_push _ _ (h1wf p))

theorem heapChildrenWF_textOp (h : Heap) (p : Nat) (s : String)
    (hh : HeapChildrenWF h) : HeapChildrenWF (textOp h p s) :=
  heapChildrenWF_set _ _ _ hh (childrenWF_push _ _ (hh p))

theorem heapChildrenWF_pushOp (h : Heap) (p : Nat) (n : Node)
    (hh : HeapChildrenWF h) : HeapChildrenWF (pushOp h p n).2 := by
  cases hprot : (h.getEl p).protectedFlag with
  | true => simp only [pushOp, hprot, if_true]; exact hh
  | false =>
    cases n with
    | text s =>
      simp [pushOp, hprot]
      exact heapChildrenWF_set _ _ _ hh (childrenWF_push _ _ (hh p))
    | elem el =>
      cases hchk : checkInsert h p el with
      | error e => simp [pushOp, hprot, hchk]; exact hh
      | ok u =>
        cases u
        simp [pushOp, hprot, hchk]
        exact heapChildrenWF_set _ _ _ hh (childrenWF_push _ _ (hh p))

theorem mapElemsGo_wf {T : Type} (h : Heap) (selfId : Nat)
    (f : Nat → Except T (Option Nat)) :
    ∀ (nodes : List Node) (acc res : Children),
      mapElemsGo h selfId f nodes acc = .ok res → ChildrenWF acc →
        ChildrenWF res := by
  intro nodes
  induction nodes with
  | nil =>
    intro acc res hgo hacc
    rw [mapElemsGo] at hgo
    exact (Except.ok.injEq .. ▸ hgo) ▸ hacc
  | cons n rest ih =>
    intro acc res hgo hacc
    cases n with
    | text s =>
      rw [mapElemsGo] at hgo
      exact ih _ res hgo (childrenWF_push _ _ hacc)
    | elem el =>
      cases hf : f el with
      | error e =>
        simp only [mapElemsGo, hf] at hgo
        exact Except.noConfusion hgo
      | ok o =>
        cases o with
        | none =>
          simp only [mapElemsGo, hf] at hgo
          exact ih _ res hgo hacc
        | some newEl =>
          by_cases hn : newEl = el
          · simp only [mapElemsGo, hf, if_pos hn] at hgo
            exact ih _ res hgo (childrenWF_push _ _ hacc)
          · simp only [mapElemsGo, hf, if_neg hn] at hgo
            cases hchk : checkInsert h selfId newEl with
            | error e => rw [hchk] at hgo; exact absurd hgo (by simp)
            | ok u =>
              cases u
              rw [hchk] at hgo
              exact ih _ res hgo (childrenWF_push _ _ hacc)

theorem heapChildrenWF_mapElementsOp {T : Type} (h : Heap) (p : Nat)
    (f : Nat → Except T (Option Nat)) (hh : HeapChildrenWF h) :
    HeapChildrenWF (mapElementsOp h p f).2 := by
  cases hprot : (h.getEl p).protectedFlag with
  | true => simp only [mapElementsOp, hprot, if_true]; exact hh
  | false =>
    cases hgo : mapElemsGo h p f (h.getEl p).children.all Children.new with
    | error e => simp [mapElementsOp, hprot, hgo]; exact hh
    | ok newChildren =>
      simp [mapElementsOp, hprot, hgo]
      exact heapChildrenWF_set _ _ _ hh
        (mapElemsGo_wf h p f _ _ _ hgo childrenWF_new)

/-- The shape of an element: everything except the `protected` flag. -/
def Element.shape (el : Element) :
    Option String × String × AttrMap × Children :=
  (el.nsuri, el.localname, el.attr, el.children)

theorem protectRec_shape :
    ∀ (fuel : Nat) (h : Heap) (x j : Nat),
      ((protectRec fuel h x).getEl j).shape = (h.getEl j).shape := by
  intro fuel
  induction fuel with
  | zero => intro h x j; rfl
  | succ f ihf =>
    intro h x j
    rw [protectRec]
    have hfold : ∀ (ids : List Nat) (h0 : Heap),
        ((ids.foldl (fun acc cid => protectRec f acc cid) h0).getEl j).shape
          = (h0.getEl j).shape := by
      intro ids
      induction ids with
      | nil => intro h0; rfl
      | cons c rest ihl =>
        intro h0
        rw [List.foldl_cons, ihl (protectRec f h0 c), ihf h0 c j]
    set h' := (h.getEl x).children.allElemIds.foldl
      (fun acc cid => protectRec f acc cid) h with hh'
    by_cases hjx : j = x
    · subst hjx
      by_cases hj : j < h'.size
      · rw [Heap.getEl_set_self _ _ _ hj]
        have := hfold (h.getEl j).children.allElemIds h
        rw [← hh'] at this
        rw [← this]
        rfl
      · rw [Heap.set_oob _ _ _ (by omega)]
        have := hfold (h.getEl j).children.allElemIds h
        rw [← hh'] at this
        exact this
    · rw [Heap.getEl_set_ne _ _ _ _ hjx]
      have := hfold (h.getEl x).children.allElemIds h
      rw [← hh'] at this
      exact this

theorem Element.shape_children (a b : Element) (hs : a.shape = b.shape) :
    a.children = b.children := by
  have := congrArg (fun t => t.2.2.2) hs
  exact this

theorem heapChildrenWF_protectRec (fuel : Nat) (h : Heap) (x : Nat)
    (hh : HeapChildrenWF h) : HeapChildrenWF (protectRec fuel h x) := by
  intro j
  rw [Element.shape_children _ _ (protectRec_shape fuel h x j)]
  exact hh j

/-- Heaps reachable from nothing by the tree-building operations of
`tree.rs` (element creation, `tag`, `text`, `push`, `map_elements`,
`protect`). -/
inductive Built : Heap → Prop where
  | empty : Built emptyHeap
  | newEl (h : Heap) (ns : Option String) (name : String) (a : AttrMap) :
      Built h → Built (newElementOp h ns name a).1
  | tag (h : Heap) (p : Nat) (ns : Option String) (name : String)
      (a : AttrMap) : Built h → Built (tagOp h p ns name a).1
  | text (h : Heap) (p : Nat) (s : String) : Built h → Built (textOp h p s)
  | push (h : Heap) (p : Nat) (n : Node) : Built h → Built (pushOp h p n).2
  | mapElems (h : Heap) (p : Nat) (f : Nat → Except Unit (Option Nat)) :
      Built h → Built (mapElementsOp h p f).2
  | protect (h : Heap) (fuel x : Nat) : Built h → Built (protectRec fuel h x)

theorem built_hwf (h : Heap) (hb : Built h) : HeapChildrenWF h := by
  induction hb with
  | empty => exact heapChildrenWF_empty
  | newEl h0 ns name a _ ih => exact heapChildrenWF_newElementOp h0 ns name a ih
  | tag h0 p ns name a _ ih => exact heapChildrenWF_tagOp h0 p ns name a ih
  | text h0 p s _ ih => exact heapChildrenWF_textOp h0 p s ih
  | push h0 p n _ ih => exact heapChildrenWF_pushOp h0 p n ih
  | mapElems h0 p f _ ih => exact heapChildrenWF_mapElementsOp h0 p f ih
  | protect h0 fuel x _ ih => exact heapChildrenWF_protectRec fuel h0 x ih

/-- C8: in any heap built by a sequence of `tag`, `text`, `push` and
(successful) `map_elements` operations, the element view of every element
E is exactly the subsequence of E's mixed child list holding Elements:
`get i` is the node stored at index `get_index i`, that node is always an
Element, the index sequence is strictly increasing, and walking the
indices yields precisely the element children in order. -/
theorem element_view_exposes_elements (h : Heap) (id i j : Nat)
    (hb : Built h)
    (hij : (h.getEl id).children.viewGetIndex i = some j) :
    (∃ e, (h.getEl id).children.all.get? j = some (Node.elem e) ∧
      (h.getEl id).children.viewGet i = some e) ∧
    (h.getEl id).children.element_indices.Pairwise (· < ·) ∧
    (h.getEl id).children.elemIds = (h.getEl id).children.allElemIds := by
  have hwf := built_hwf h hb id
  exact ⟨childrenWF_viewGet _ hwf i j hij, childrenWF_sorted _ hwf,
    childrenWF_subseq _ hwf⟩

/-- Witness for C8: a `<message/>` with a text node between two element
children, built by `tag`/`text`; the view maps position 1 back to mixed
index 2. -/
theorem element_view_witness :
    (∃ e, ((tagOp (textOp (tagOp (newElementOp emptyHeap none "message"
        AttrMap.nil).1 0 none "body" AttrMap.nil).1 0 "hi") 0 none "delay"
        AttrMap.nil).1.getEl 0).children.all.get? 2 =
          some (Node.elem e) ∧
      ((tagOp (textOp (tagOp (newElementOp emptyHeap none "message"
        AttrMap.nil).1 0 none "body" AttrMap.nil).1 0 "hi") 0 none "delay"
        AttrMap.nil).1.getEl 0).children.viewGet 1 = some e) ∧
    ((tagOp (textOp (tagOp (newElementOp emptyHeap none "message"
        AttrMap.nil).1 0 none "body" AttrMap.nil).1 0 "hi") 0 none "delay"
        AttrMap.nil).1.getEl 0).children.element_indices.Pairwise
        (· < ·) ∧
    ((tagOp (textOp (tagOp (newElementOp emptyHeap none "message"
        AttrMap.nil).1 0 none "body" AttrMap.nil).1 0 "hi") 0 none "delay"
        AttrMap.nil).1.getEl 0).children.elemIds =
      ((tagOp (textOp (tagOp (newElementOp emptyHeap none "message"
        AttrMap.nil).1 0 none "body" AttrMap.nil).1 0 "hi") 0 none "delay"
        AttrMap.nil).1.getEl 0).children.allElemIds :=
  element_view_exposes_elements _ 0 1 2
    (Built.tag _ 0 none "delay" AttrMap.nil
      (Built.text _ 0 "hi" (Built.tag _ 0 none "body" AttrMap.nil
        (Built.newEl emptyHeap none "message" AttrMap.nil Built.empty))))
    (by rfl)

/-! ### `protect` (claim C5) -/

/-- Reachability through element children (`x` and all its descendants). -/
inductive ReachM (h : Heap) : Nat → Nat → Prop where
  | refl (x : Nat) : ReachM h x x
  | step (x c y : Nat) : c ∈ (h.getEl x).children.allElemIds →
      ReachM h c y → ReachM h x y

/-- The set of elements `protect_rec` visits (and flags) within `fuel`. -/
def visitSet : Nat → Heap → Nat → Nat → Bool
  | 0, _, _, _ => false
  | fuel + 1, h, x, j =>
    (j == x) || (h.getEl x).children.allElemIds.any
      (fun c => visitSet fuel h c j)

theorem protectRec_size :
    ∀ (fuel : Nat) (h : Heap) (x : Nat),
      (protectRec fuel h x).size = h.size := by
  intro fuel
  induction fuel with
  | zero => intro h x; rfl
  | succ f ihf =>
    intro h x
    rw [protectRec]
    have hfold : ∀ (ids : List Nat) (h0 : Heap),
        (ids.foldl (fun acc cid => protectRec f acc cid) h0).size =
          h0.size := by
      intro ids
      induction ids with
      | nil => intro h0; rfl
      | cons c rest ihl =>
        intro h0
        rw [List.foldl_cons, ihl (protectRec f h0 c), ihf h0 c]
    rw [Heap.size_set, hfold]

theorem protectRec_children (fuel : Nat) (h : Heap) (x j : Nat) :
    ((protectRec fuel h x).getEl j).children = (h.getEl j).children :=
  Element.shape_children _ _ (protectRec_shape fuel h x j)

theorem list_any_congr {α : Type} (l : List α) (f g : α → Bool)
    (hfg : ∀ a ∈ l, f a = g a) : l.any f = l.any g := by
  induction l with
  | nil => rfl
  | cons a rest ih =>
    rw [List.any_cons, List.any_cons, hfg a (List.mem_cons_self a rest),
      ih (fun b hb => hfg b (List.mem_cons_of_mem a hb))]

theorem visitSet_congr (h1 h2 : Heap)
    (hch : ∀ id, (h1.getEl id).children = (h2.getEl id).children) :
    ∀ fuel x j, visitSet fuel h1 x j = visitSet fuel h2 x j := by
  intro fuel
  induction fuel with
  | zero => intro x j; rfl
  | succ f ihf =>
    intro x j
    rw [visitSet, visitSet, hch x]
    congr 1
    exact list_any_congr _ _ _ (fun c _ => ihf c j)

theorem heapWF_congr (h1 h2 : Heap) (rank : Nat → Nat)
    (hs : h1.size = h2.size)
    (hch : ∀ id, (h1.getEl id).children = (h2.getEl id).children)
    (hwf : HeapWF h2 rank) : HeapWF h1 rank := by
  intro id hid c hc
  rw [hch id] at hc
  rw [hs] at hid
  have := hwf id hid c hc
  omega

/-- Normal form of `protect_rec`: the flag of `j` afterwards is its old
flag, or-ed with whether the recursion visits `j`. -/
theorem protectRec_flag_nf (rank : Nat → Nat) :
    ∀ (fuel : Nat) (h : Heap) (x j : Nat), HeapWF h rank → x < h.size →
      ((protectRec fuel h x).getEl j).protectedFlag =
        ((h.getEl j).protectedFlag || visitSet fuel h x j) := by
  intro fuel
  induction fuel with
  | zero => intro h x j _ _; simp [protectRec, visitSet]
  | succ f ihf =>
    intro h x j hwf hx
    rw [protectRec, visitSet]
    have hfold : ∀ (ids : List Nat) (h0 : Heap), HeapWF h0 rank →
        (∀ c ∈ ids, c < h0.size) →
        (∀ id, (h0.getEl id).children = (h.getEl id).children) →
        (((ids.foldl (fun acc cid => protectRec f acc cid) h0).getEl
            j).protectedFlag =
          ((h0.getEl j).protectedFlag ||
            ids.any (fun c => visitSet f h c j))) ∧
        HeapWF (ids.foldl (fun acc cid => protectRec f acc cid) h0) rank ∧
        (ids.foldl (fun acc cid => protectRec f acc cid) h0).size =
          h0.size ∧
        (∀ id, ((ids.foldl (fun acc cid => protectRec f acc cid)
            h0).getEl id).children = (h.getEl id).children) := by
      intro ids
      induction ids with
      | nil =>
        intro h0 hwf0 _ hch0
        exact ⟨by simp, hwf0, rfl, hch0⟩
      | cons c rest ihl =>
        intro h0 hwf0 hlt hch0
        have hc0 : c < h0.size := hlt c (List.mem_cons_self c rest)
        have h1wf : HeapWF (protectRec f h0 c) rank :=
          heapWF_congr _ h0 rank (protectRec_size f h0 c)
            (fun id => protectRec_children f h0 c id) hwf0
        have h1sz : (protectRec f h0 c).size = h0.size :=
          protectRec_size f h0 c
        have h1ch : ∀ id, ((protectRec f h0 c).getEl id).children =
            (h.getEl id).children := by
          intro id
          rw [protectRec_children f h0 c id]
          exact hch0 id
        obtain ⟨ihflag, ihwf, ihsz, ihch⟩ :=
          ihl (protectRec f h0 c) h1wf
            (fun d hd => by
              rw [h1sz]; exact hlt d (List.mem_cons_of_mem c hd))
            h1ch
        refine ⟨?_, by rwa [List.foldl_cons], by
            rw [List.foldl_cons, ihsz, h1sz], by
            rw [List.foldl_cons] at *; exact ihch⟩
        rw [List.foldl_cons, ihflag, ihf h0 c j hwf0 hc0]
        rw [List.any_cons]
        rw [visitSet_congr h0 h (fun id => hch0 id) f c j]
        rw [Bool.or_assoc]
    obtain ⟨hflag, _, hsz, _⟩ := hfold (h.getEl x).children.allElemIds h hwf
      (fun c hc => (hwf x hx c hc).1) (fun _ => rfl)
    by_cases hjx : j = x
    · subst hjx
      rw [Heap.getEl_set_self _ _ _ (by rw [hsz]; exact hx)]
      simp
    · rw [Heap.getEl_set_ne _ _ _ _ hjx, hflag]
      have : (j == x) = false := by
        simp [hjx]
      rw [this]
      simp [Bool.or_assoc]

/-- Reachable elements are visited, given enough fuel for the rank. -/
theorem visitSet_of_reach (h : Heap) (rank : Nat → Nat)
    (hwf : HeapWF h rank) (x y : Nat) (hreach : ReachM h x y) :
    x < h.size → ∀ fuel, rank x < fuel → visitSet fuel h x y = true := by
  induction hreach with
  | refl x =>
    intro _ fuel hfuel
    cases fuel with
    | zero => omega
    | succ f => simp [visitSet]
  | step x c y hc _ ih =>
    intro hx fuel hfuel
    obtain ⟨hcsz, hcrank⟩ := hwf x hx c hc
    cases fuel with
    | zero => omega
    | succ f =>
      rw [visitSet]
      have : (h.getEl x).children.allElemIds.any
          (fun d => visitSet f h d y) = true :=
        List.any_eq_true.mpr ⟨c, hc, ih hcsz f (by omega)⟩
      rw [this]
      simp

theorem Element.eq_of_shape_flag (a b : Element) (hs : a.shape = b.shape)
    (hf : a.protectedFlag = b.protectedFlag) : a = b := by
  obtain ⟨n1, l1, a1, c1, p1⟩ := a
  obtain ⟨n2, l2, a2, c2, p2⟩ := b
  simp only [Element.shape, Prod.mk.injEq] at hs
  simp only at hf
  obtain ⟨e1, e2, e3, e4⟩ := hs
  rw [e1, e2, e3, e4, hf]

theorem Heap.eq_of_getEl (h1 h2 : Heap) (hs : h1.size = h2.size)
    (he : ∀ j, j < h1.size → h1.getEl j = h2.getEl j) : h1 = h2 := by
  obtain ⟨l1⟩ := h1
  obtain ⟨l2⟩ := h2
  simp only [Heap.size] at hs he
  congr 1
  apply List.ext_getElem?
  intro n
  by_cases hn : n < l1.length
  · have h1n : l1[n]? = some l1[n] := List.getElem?_eq_getElem hn
    have h2n : l2[n]? = some l2[n] := List.getElem?_eq_getElem (by omega)
    rw [h1n, h2n]
    have := he n hn
    simp only [Heap.getEl, List.get?_eq_getElem?, h1n, h2n,
      Option.getD_some] at this
    rw [this]
  · rw [List.getElem?_eq_none (by omega), List.getElem?_eq_none (by omega)]

/-- C5: `protect()` flags the element and every descendant, and is
idempotent; on a protected element `push` and `map_elements` fail with
`Protected` leaving everything unchanged, while `tag` and `text` still
succeed, the `tag`-created child being protected itself. -/
theorem protect_semantics (h : Heap) (rank : Nat → Nat) (fuel x y f : Nat)
    (s : String) (ns : Option String) (name : String) (a : AttrMap)
    (n : Node) (g : Nat → Except Unit (Option Nat))
    (hwf : HeapWF h rank) (hx : x < h.size) (hfuel : rank x < fuel)
    (hreach : ReachM h x y)
    (hf : (h.getEl f).protectedFlag = true) (hfsz : f < h.size) :
    ((protectRec fuel h x).getEl y).protectedFlag = true ∧
    protectRec fuel (protectRec fuel h x) x = protectRec fuel h x ∧
    pushOp h f n = (.error .Protected, h) ∧
    mapElementsOp h f g = (.error (.Structural .Protected), h) ∧
    ((tagOp h f ns name a).1.getEl h.size).protectedFlag = true ∧
    ((textOp h f s).getEl f).children.all =
      (h.getEl f).children.all ++ [Node.text s] := by
  have hch1 : ∀ id, ((protectRec fuel h x).getEl id).children =
      (h.getEl id).children := fun id => protectRec_children fuel h x id
  have hsz1 : (protectRec fuel h x).size = h.size := protectRec_size fuel h x
  have hwf1 : HeapWF (protectRec fuel h x) rank :=
    heapWF_congr _ h rank hsz1 hch1 hwf
  refine ⟨?_, ?_, ?_, ?_, ?_, ?_⟩
  · rw [protectRec_flag_nf rank fuel h x y hwf hx,
      visitSet_of_reach h rank hwf x y hreach hx fuel hfuel]
    simp
  · apply Heap.eq_of_getEl
    · rw [protectRec_size]
    · intro j _
      apply Element.eq_of_shape_flag
      · rw [protectRec_shape, protectRec_shape]
      · rw [protectRec_flag_nf rank fuel (protectRec fuel h x) x j hwf1
          (by rw [hsz1]; exact hx)]
        rw [protectRec_flag_nf rank fuel h x j hwf hx]
        rw [visitSet_congr (protectRec fuel h x) h hch1 fuel x j]
        rw [Bool.or_assoc, Bool.or_self]
  · simp [pushOp, hf]
  · simp [mapElementsOp, hf]
  · rw [tagOp_getEl_child h f ns name a hfsz]
    exact hf
  · rw [textOp, Heap.getEl_set_self _ _ _ hfsz, Element.pushNode_all]

/-- A two-element protected heap (`<message><body/></message>`, both
protected) used by the C5 witness. -/
def witnessHeapProt : Heap :=
  ⟨[⟨none, "message", AttrMap.nil, ⟨[Node.elem 1], [0]⟩, true⟩,
    ⟨none, "body", AttrMap.nil, ⟨[], []⟩, true⟩]⟩

/-- Witness for C5 at the concrete protected two-element heap. -/
theorem protect_semantics_witness :
    ((protectRec 2 witnessHeapProt 0).getEl 1).protectedFlag = true ∧
    protectRec 2 (protectRec 2 witnessHeapProt 0) 0 =
      protectRec 2 witnessHeapProt 0 ∧
    pushOp witnessHeapProt 0 (Node.text "x") =
      (.error .Protected, witnessHeapProt) ∧
    mapElementsOp (T := Unit) witnessHeapProt 0 (fun i => .ok (some i)) =
      (.error (.Structural .Protected), witnessHeapProt) ∧
    ((tagOp witnessHeapProt 0 none "delay" AttrMap.nil).1.getEl
      witnessHeapProt.size).protectedFlag = true ∧
    ((textOp witnessHeapProt 0 "hello").getEl 0).children.all =
      (witnessHeapProt.getEl 0).children.all ++ [Node.text "hello"] :=
  protect_semantics witnessHeapProt (fun i => 1 - i) 2 0 1 0 "hello" none
    "delay" AttrMap.nil (Node.text "x") (fun i => .ok (some i))
    (by intro id hid c hc
        simp [witnessHeapProt, Heap.size] at hid
        interval_cases id <;>
          simp_all [witnessHeapProt, Heap.getEl, Children.allElemIds,
            Node.asElemId, Heap.size])
    (by simp [witnessHeapProt, Heap.size])
    (by decide)
    (ReachM.step 0 1 1
      (by simp [witnessHeapProt, Heap.getEl, Children.allElemIds,
        Node.asElemId])
      (ReachM.refl 1))
    (by rfl)
    (by simp [witnessHeapProt, Heap.size])

/-! ## Cursor and Stanza (`src/stanza/path.rs`, `src/stanza/stanza.rs`) -/

/-- `ElementPath::deref_on`: walk the child indices from the root; a step
hitting a text node or running past the end fails. -/
def derefOn (h : Heap) : List Nat → Nat → Option Nat
  | [], curr => some curr
  | i :: rest, curr =>
    match (h.getEl curr).children.all.get? i with
    | some (Node.elem e) => derefOn h rest e
    | _ => none

/-- `Stanza`: a root handle plus a cursor path of child indices. -/
structure Stanza where
  root : Nat
  cursor : List Nat
deriving DecidableEq, Repr

/-- `Stanza::wrap` (and `Stanza::new` after allocating the root). -/
def Stanza.wrap (root : Nat) : Stanza := ⟨root, []⟩

def Stanza.tryDeref (h : Heap) (st : Stanza) : Option Nat :=
  derefOn h st.cursor st.root

/-- `Stanza::tag`: deref the cursor; on failure return `none` leaving heap
and cursor untouched; on success append a child at `parent.len()`, descend
the cursor and hand back the new element. -/
def stanzaTag (h : Heap) (st : Stanza) (ns : Option String) (name : String)
    (attr : AttrMap) : Option Nat × Heap × Stanza :=
  match derefOn h st.cursor st.root with
  | none => (none, h, st)
  | some parent =>
    let newIndex := (h.getEl parent).children.all.length
    let r := tagOp h parent ns name attr
    (some r.2, r.1, ⟨st.root, st.cursor ++ [newIndex]⟩)

/-- `Stanza::text`: deref the cursor; on failure return `false` leaving
everything untouched; the cursor never moves. -/
def stanzaText (h : Heap) (st : Stanza) (s : String) :
    Bool × Heap × Stanza :=
  match derefOn h st.cursor st.root with
  | none => (false, h, st)
  | some parent => (true, textOp h parent s, st)

/-- `Stanza::up` (no-op at the root). -/
def Stanza.up (st : Stanza) : Stanza :=
  if st.cursor.length = 0 then st else ⟨st.root, st.cursor.dropLast⟩

/-- `Stanza::is_at_top`. -/
def Stanza.isAtTop (st : Stanza) : Bool := st.cursor.length == 0

/-- C10: when the cursor does not dereference to an element (an index
hits a text node or runs past the end), `Stanza::tag` returns `none` and
`Stanza::text` returns `false`, and both leave the tree and the cursor
path completely unchanged. -/
theorem cursor_miss_leaves_state_unchanged (h : Heap) (st : Stanza)
    (ns : Option String) (name : String) (attr : AttrMap) (s : String)
    (hmiss : derefOn h st.cursor st.root = none) :
    stanzaTag h st ns name attr = (none, h, st) ∧
    stanzaText h st s = (false, h, st) := by
  rw [stanzaTag, stanzaText, hmiss]
  exact ⟨rfl, rfl⟩

/-- Witness for C10: a cursor step pointing at a text node. -/
theorem cursor_miss_witness :
    stanzaTag ⟨[⟨none, "message", AttrMap.nil, ⟨[Node.text "hi"], []⟩,
        false⟩]⟩ ⟨0, [0]⟩ none "body" AttrMap.nil =
      (none, ⟨[⟨none, "message", AttrMap.nil, ⟨[Node.text "hi"], []⟩,
        false⟩]⟩, ⟨0, [0]⟩) ∧
    stanzaText ⟨[⟨none, "message", AttrMap.nil, ⟨[Node.text "hi"], []⟩,
        false⟩]⟩ ⟨0, [0]⟩ "x" =
      (false, ⟨[⟨none, "message", AttrMap.nil, ⟨[Node.text "hi"], []⟩,
        false⟩]⟩, ⟨0, [0]⟩) :=
  cursor_miss_leaves_state_unchanged _ _ none "body" AttrMap.nil "x"
    (by rfl)

/-! ## XMPP helpers (`src/stanza/xmpp.rs`) -/

def xmlnsXmppStanzas : String := "urn:ietf:params:xml:ns:xmpp-stanzas"

/-- `make_reply`: same local name, no namespace; `id` copied, `from`/`to`
swapped; `type` forced to `result` for `iq`, else copied. -/
def makeReply (h : Heap) (stId : Nat) : Heap × Nat :=
  let el := h.getEl stId
  let a1 := match el.attr.get "id" with
    | some v => AttrMap.insert AttrMap.nil "id" v
    | none => AttrMap.nil
  let a2 := match el.attr.get "from" with
    | some v => a1.insert "to" v
    | none => a1
  let a3 := match el.attr.get "to" with
    | some v => a2.insert "from" v
    | none => a2
  let a4 :=
    if el.localname = "iq" then a3.insert "type" "result"
    else match el.attr.get "type" with
      | some v => a3.insert "type" v
      | none => a3
  newElementOp h none el.localname a4

/-- `ElementSelector`. -/
structure ElementSelector where
  filter_by_name : Bool
  name : Option String
  allow_absent_xmlns : Bool
  match_xmlns : Bool
  nsuri : Option String
deriving DecidableEq, Repr

/-- `ElementSelector::select_inside_xmlns`. -/
def ElementSelector.selectInsideXmlns (defaultXmlns : Option String)
    (name : Option String) (xmlns : Option String) : ElementSelector :=
  let fbn := match name with
    | some n => (true, some n)
    | none => (false, none)
  let nsr := match xmlns with
    | some ns =>
      match defaultXmlns with
      | some defaultNs => (defaultNs == ns, true, some ns)
      | none => (false, true, some ns)
    | none =>
      match defaultXmlns with
      | some ns => (true, true, some ns)
      | none => (true, false, none)
  ⟨fbn.1, fbn.2, nsr.1, nsr.2.1, nsr.2.2⟩

/-- `ElementSelector::select_str`. -/
def ElementSelector.selectStr (sel : ElementSelector) (name : String)
    (xmlns : Option String) : Bool :=
  if sel.filter_by_name && !(sel.name == some name) then false
  else
    match xmlns with
    | some x => sel.match_xmlns && (sel.nsuri == some x)
    | none => sel.allow_absent_xmlns

/-- `ElementSelector::find_first_child` over the element-child iterator. -/
def ElementSelector.findFirstChild (sel : ElementSelector) (h : Heap)
    (ids : List Nat) : Option Nat :=
  ids.find? (fun c => sel.selectStr (h.getEl c).localname (h.getEl c).nsuri)

/-- One step of the `extract_error_info` child scan, updating
`(condition, text, appdef)`. -/
def errInfoStep (h : Heap) (acc : String × Option String × Option Nat)
    (c : Nat) : String × Option String × Option Nat :=
  match (h.getEl c).nsuri with
  | some ns =>
    if ns = xmlnsXmppStanzas then
      if (h.getEl c).localname = "text" then (acc.1, getTextOp h c, acc.2.2)
      else ((h.getEl c).localname, acc.2.1, acc.2.2)
    else (acc.1, acc.2.1, some c)
  | none => acc

/-- `extract_error_info`: `none` without a `type` attribute, else the scan
over the element children starting from `undefined-condition`. -/
def extractErrorInfo (h : Heap) (elId : Nat) :
    Option (String × String × Option String × Option Nat) :=
  match (h.getEl elId).attr.get "type" with
  | none => none
  | some t =>
    let r := ((h.getEl elId).children.elemIds).foldl (errInfoStep h)
      ("undefined-condition", none, none)
    some (t, r.1, r.2.1, r.2.2)

/-- `extract_error`: select the first `<error/>` child under the stanza's
default namespace and delegate. -/
def extractError (h : Heap) (stId : Nat) :
    Option (String × String × Option String × Option Nat) :=
  let sel := ElementSelector.selectInsideXmlns (h.getEl stId).nsuri
    (some "error") none
  match sel.findFirstChild h (h.getEl stId).children.elemIds with
  | none => none
  | some errId => extractErrorInfo h errId

/-- `make_error_reply`. -/
def makeErrorReply (h : Heap) (stId : Nat) (type_ condition : String)
    (text by_ : Option String) : Except String (Heap × Nat) :=
  if (h.getEl stId).attr.get "type" = some "error" then
    .error "bad argument to make_error_reply: got stanza of type error which must not be replied to"
  else
    let r1 := makeReply h stId
    let replyId := r1.2
    let h2 := r1.1.set replyId { r1.1.getEl replyId with
      attr := (r1.1.getEl replyId).attr.insert "type" "error" }
    let r3 := tagOp h2 replyId none "error" AttrMap.nil
    let errId := r3.2
    let h4 := r3.1.set errId { r3.1.getEl errId with
      attr := (r3.1.getEl errId).attr.insert "type" type_ }
    let h5 := match by_ with
      | some b => h4.set errId { h4.getEl errId with
          attr := (h4.getEl errId).attr.insert "by" b }
      | none => h4
    let r6 := tagOp h5 errId (some xmlnsXmppStanzas) condition AttrMap.nil
    let h7 := match text with
      | some t =>
        let r7 := tagOp r6.1 errId (some xmlnsXmppStanzas) "text"
          AttrMap.nil
        textOp r7.1 r7.2 t
      | none => r6.1
    .ok (h7, replyId)

/-! ### C6: extract_error_info -/

/-- A heap holding an `<error type='cancel'/>` with one namespace-less
child, plus sample children of every namespace class and an empty error,
used by the C6 theorems. -/
def xmppErrHeap : Heap :=
  ⟨[⟨none, "error", [("type", "cancel")], ⟨[Node.elem 1], [0]⟩, false⟩,
    ⟨none, "foo", AttrMap.nil, ⟨[], []⟩, false⟩,
    ⟨some xmlnsXmppStanzas, "text", AttrMap.nil,
      ⟨[Node.text "nope"], []⟩, false⟩,
    ⟨some xmlnsXmppStanzas, "service-unavailable", AttrMap.nil,
      ⟨[], []⟩, false⟩,
    ⟨some "urn:example", "custom", AttrMap.nil, ⟨[], []⟩, false⟩,
    ⟨none, "error", [("type", "x")], ⟨[], []⟩, false⟩]⟩

/-- C6, counterexample: on an `<error type='cancel'/>` whose only child
has an absent namespace, `extract_error_info` ignores that child entirely
(the application-defined slot stays empty), contradicting the claim that
such a child is recorded as the application-defined extra. -/
theorem extract_error_info_ignores_absent_ns_child :
    extractErrorInfo xmppErrHeap 0 =
      some ("cancel", "undefined-condition", none, none) ∧
    (extractErrorInfo xmppErrHeap 0).map (fun r => r.2.2.2) ≠
      some (some 1) := by
  constructor
  · rfl
  · decide

/-- C6, amended: `extract_error_info` returns `none` exactly when the
`type` attribute is missing; otherwise it scans the element children in
order starting from condition `undefined-condition`: a stanzas-URN child
named `text` sets the text slot to its concatenated text content, a
stanzas-URN child with another name becomes the condition, a child with a
present namespace different from the URN becomes the application-defined
extra (the last such child winning), and a child with an absent namespace
is ignored. -/
theorem extract_error_info_scan (h : Heap) (id id2 c0 c1 c2 c3 : Nat)
    (t u : String) (ids : List Nat)
    (acc : String × Option String × Option Nat)
    (htype2 : (h.getEl id2).attr.get "type" = some t)
    (hch2 : (h.getEl id2).children.elemIds = [])
    (hns0 : (h.getEl c0).nsuri = none)
    (hns1 : (h.getEl c1).nsuri = some xmlnsXmppStanzas)
    (hname1 : (h.getEl c1).localname = "text")
    (hns2 : (h.getEl c2).nsuri = some xmlnsXmppStanzas)
    (hname2 : (h.getEl c2).localname ≠ "text")
    (hns3 : (h.getEl c3).nsuri = some u)
    (hu : u ≠ xmlnsXmppStanzas) :
    (extractErrorInfo h id = none ↔
      (h.getEl id).attr.get "type" = none) ∧
    extractErrorInfo h id2 = some (t, "undefined-condition", none, none) ∧
    (ids ++ [c0]).foldl (errInfoStep h) acc =
      ids.foldl (errInfoStep h) acc ∧
    (ids ++ [c1]).foldl (errInfoStep h) acc =
      ((ids.foldl (errInfoStep h) acc).1, getTextOp h c1,
       (ids.foldl (errInfoStep h) acc).2.2) ∧
    (ids ++ [c2]).foldl (errInfoStep h) acc =
      ((h.getEl c2).localname, (ids.foldl (errInfoStep h) acc).2.1,
       (ids.foldl (errInfoStep h) acc).2.2) ∧
    (ids ++ [c3]).foldl (errInfoStep h) acc =
      ((ids.foldl (errInfoStep h) acc).1,
       (ids.foldl (errInfoStep h) acc).2.1, some c3) := by
  refine ⟨?_, ?_, ?_, ?_, ?_, ?_⟩
  · rw [extractErrorInfo]
    cases hty : (h.getEl id).attr.get "type" with
    | none => simp
    | some v => simp
  · rw [extractErrorInfo, htype2, hch2]
    rfl
  · rw [List.foldl_append, List.foldl_cons, List.foldl_nil, errInfoStep,
      hns0]
  · rw [List.foldl_append, List.foldl_cons, List.foldl_nil, errInfoStep,
      hns1]
    simp [hname1]
  · rw [List.foldl_append, List.foldl_cons, List.foldl_nil, errInfoStep,
      hns2]
    simp [hname2]
  · rw [List.foldl_append, List.foldl_cons, List.foldl_nil, errInfoStep,
      hns3]
    simp [hu]

/-- Witness for the amended C6 theorem on the concrete heap. -/
theorem extract_error_info_scan_witness :
    (extractErrorInfo xmppErrHeap 0 = none ↔
      (xmppErrHeap.getEl 0).attr.get "type" = none) ∧
    extractErrorInfo xmppErrHeap 5 =
      some ("x", "undefined-condition", none, none) ∧
    ([] ++ [1]).foldl (errInfoStep xmppErrHeap)
        ("undefined-condition", none, none) =
      [].foldl (errInfoStep xmppErrHeap) ("undefined-condition", none, none) ∧
    ([] ++ [2]).foldl (errInfoStep xmppErrHeap)
        ("undefined-condition", none, none) =
      (([].foldl (errInfoStep xmppErrHeap)
          ("undefined-condition", none, none)).1,
       getTextOp xmppErrHeap 2,
       (([] : List Nat).foldl (errInfoStep xmppErrHeap)
          ("undefined-condition", none, none)).2.2) ∧
    ([] ++ [3]).foldl (errInfoStep xmppErrHeap)
        ("undefined-condition", none, none) =
      ((xmppErrHeap.getEl 3).localname,
       (([] : List Nat).foldl (errInfoStep xmppErrHeap)
          ("undefined-condition", none, none)).2.1,
       (([] : List Nat).foldl (errInfoStep xmppErrHeap)
          ("undefined-condition", none, none)).2.2) ∧
    ([] ++ [4]).foldl (errInfoStep xmppErrHeap)
        ("undefined-condition", none, none) =
      ((([] : List Nat).foldl (errInfoStep xmppErrHeap)
          ("undefined-condition", none, none)).1,
       (([] : List Nat).foldl (errInfoStep xmppErrHeap)
          ("undefined-condition", none, none)).2.1, some 4) :=
  extract_error_info_scan xmppErrHeap 0 5 1 2 3 4 "x" "urn:example" []
    ("undefined-condition", none, none)
    (by rfl) (by rfl) (by rfl) (by rfl) (by rfl) (by rfl)
    (by decide) (by rfl) (by decide)

/-! ### C7: make_error_reply -/

/-- The `<message type='chat'/>` stanza of the C7 scenario. -/
def msgChatHeap : Heap :=
  ⟨[⟨none, "message", [("type", "chat")], ⟨[], []⟩, false⟩]⟩

/-- The heap/root pair produced by the C7 `make_error_reply` call. -/
def c7res : Heap × Nat :=
  match makeErrorReply msgChatHeap 0 "cancel" "service-unavailable"
    (some "nope") none with
  | .ok pr => pr
  | .error _ => (emptyHeap, 0)

/-- C7: `make_error_reply` fails (creating nothing) exactly when the
source stanza's `type` attribute is `error`; on `<message type='chat'/>`
with (`cancel`, `service-unavailable`, `nope`) it produces
`<message type='error'><error type='cancel'><service-unavailable xmlns='…stanzas'/><text xmlns='…stanzas'>nope</text></error></message>`
and `extract_error` reads back
(`cancel`, `service-unavailable`, some `nope`, none). -/
theorem make_error_reply_semantics (h : Heap) (stId : Nat)
    (t c : String) (tx b : Option String) :
    ((∃ e, makeErrorReply h stId t c tx b = .error e) ↔
      (h.getEl stId).attr.get "type" = some "error") ∧
    makeErrorReply msgChatHeap 0 "cancel" "service-unavailable"
      (some "nope") none = .ok c7res ∧
    c7res.2 = 1 ∧
    (c7res.1.getEl 1).localname = "message" ∧
    (c7res.1.getEl 1).nsuri = none ∧
    (c7res.1.getEl 1).attr.get "type" = some "error" ∧
    (c7res.1.getEl 1).attr.get "id" = none ∧
    (c7res.1.getEl 1).attr.get "from" = none ∧
    (c7res.1.getEl 1).attr.get "to" = none ∧
    (c7res.1.getEl 1).children.all = [Node.elem 2] ∧
    (c7res.1.getEl 2).localname = "error" ∧
    (c7res.1.getEl 2).nsuri = none ∧
    (c7res.1.getEl 2).attr.get "type" = some "cancel" ∧
    (c7res.1.getEl 2).attr.get "by" = none ∧
    (c7res.1.getEl 2).children.all = [Node.elem 3, Node.elem 4] ∧
    (c7res.1.getEl 3).localname = "service-unavailable" ∧
    (c7res.1.getEl 3).nsuri = some xmlnsXmppStanzas ∧
    (c7res.1.getEl 3).children.all = [] ∧
    (c7res.1.getEl 4).localname = "text" ∧
    (c7res.1.getEl 4).nsuri = some xmlnsXmppStanzas ∧
    getTextOp c7res.1 4 = some "nope" ∧
    extractError c7res.1 1 =
      some ("cancel", "service-unavailable", some "nope", none) := by
  refine ⟨?_, by rfl, by rfl, by rfl, by rfl, by rfl, by rfl, by rfl,
    by rfl, by rfl, by rfl, by rfl, by rfl, by rfl, by rfl, by rfl,
    by rfl, by rfl, by rfl, by rfl, by rfl, by rfl⟩
  by_cases hc : (h.getEl stId).attr.get "type" = some "error"
  · simp [makeErrorReply, hc]
  · simp [makeErrorReply, hc]

/-! ## Stream engine (`src/xmppstream/stream.rs`)

The low-level `rxml::FeedParser` is an external dependency; it is modelled
as a byte-count buffer plus the queue of results its `read` will produce
for the bytes the session feeds (an exhausted queue is the WouldBlock
signal).  Everything downstream of those events is translated from the
engine source. -/

def xmlnsStreams : String := "http://etherx.jabber.org/streams"

/-- `rxml::XMLNS_XML` as a `String` (attr keys of the tree use strings). -/
def xmlnsXmlS : String := "http://www.w3.org/XML/1998/namespace"

/-- The `\x01` delimiter as a string, for composed attribute keys. -/
def nsDelimS : String := String.mk [nsDelim]

/-- `rxml` events; each carries the byte length of the source text it
covers (the event metrics the engine reads with `em.len()`). -/
inductive RxmlEvent where
  | xmlDecl (len : Nat)
  | startElement (len : Nat) (nsuri : Option String) (localname : String)
      (attrs : List ((Option String × String) × String))
  | text (len : Nat) (cdata : String)
  | endElement (len : Nat)
deriving DecidableEq, Repr

/-- Non-I/O `rxml` errors (payload opaque to the engine). -/
inductive RxmlErr where
  | restrictedXml (msg : String)
  | other (msg : String)
deriving DecidableEq, Repr

/-- What `Error::ParserError` wraps: WouldBlock or a real parser error. -/
inductive PErr where
  | wouldBlock
  | rx (e : RxmlErr)
deriving DecidableEq, Repr

/-- `xmppstream::Error`. -/
inductive StreamError where
  | ParserError (e : PErr)
  | StanzaLimitExceeded
  | InvalidStreamHeader
  | InvalidTopLevelElement
  | TextAtStreamLevel
deriving DecidableEq, Repr

/-- `xmppstream::Event` (`Opened` fields in source order:
lang, from, to, id, version). -/
inductive XmppEvent where
  | opened (lang fromv tov idv version : Option String)
  | stanza (st : Stanza)
  | errorEv (st : Stanza)
  | closed
deriving DecidableEq, Repr

/-- `ProcResult` (the dead `Eof` variant is never constructed and is
omitted). -/
inductive ProcResult where
  | needMore
  | event (e : XmppEvent)
deriving DecidableEq, Repr

structure StreamConfig where
  stream_namespace : String
  default_namespace : String
  stream_localname : String
  error_localname : String
deriving DecidableEq, Repr

def StreamConfig.c2s : StreamConfig :=
  ⟨xmlnsStreams, "jabber:client", "stream", "error"⟩

def StreamConfig.s2s : StreamConfig :=
  ⟨xmlnsStreams, "jabber:server", "stream", "error"⟩

instance {e a : Type} [DecidableEq e] [DecidableEq a] :
    DecidableEq (Except e a) := fun x y =>
  match x, y with
  | .ok v, .ok w =>
    if h : v = w then isTrue (by rw [h])
    else isFalse (by intro hc; injection hc; contradiction)
  | .ok _, .error _ => isFalse (by intro hc; exact Except.noConfusion hc)
  | .error _, .ok _ => isFalse (by intro hc; exact Except.noConfusion hc)
  | .error v, .error w =>
    if h : v = w then isTrue (by rw [h])
    else isFalse (by intro hc; injection hc; contradiction)

/-- The modelled `rxml::FeedParser`: buffered byte count plus the queue of
read results for this session's input. -/
structure ParserState where
  buf : Nat
  events : List (Except RxmlErr (Option RxmlEvent))
deriving DecidableEq, Repr

/-- `XMPPStream` (the stanza trees live in the engine-held `heap`). -/
structure XMPPStream where
  p : ParserState
  is_open : Bool
  stanza : Option Stanza
  heap : Heap
  stanza_size : Nat
  pending_bytes : Nat
  stanza_limit : Option Nat
  non_streamns_depth : Nat
  cfg : StreamConfig
  err : Option StreamError
deriving DecidableEq, Repr

/-- `XMPPStream::new` over the given parser-event queue. -/
def XMPPStream.new (cfg : StreamConfig)
    (events : List (Except RxmlErr (Option RxmlEvent))) : XMPPStream :=
  ⟨⟨0, events⟩, false, none, emptyHeap, 0, 0, none, 0, cfg, none⟩

/-- `XMPPStream::poison`: set the slot, zero `pending_bytes`, clear the
parser buffer. -/
def XMPPStream.poison (e : XMPPStream) (er : StreamError) : XMPPStream :=
  { e with err := some er, pending_bytes := 0, p := { e.p with buf := 0 } }

/-- `account_bytes` (release build: `saturating_sub`). -/
def accountBytes (pending seen : Nat) : Nat := pending - seen

/-- `accum_bytes`: `checked_add` against `usize::MAX`. -/
def accumBytes (accum add : Nat) : Except StreamError Nat :=
  if accum + add ≤ usizeMax then .ok (accum + add)
  else .error .StanzaLimitExceeded

/-- `convert_attrs`: XML-namespace attributes take the `xml:` prefix form,
other namespaced attributes the `<ns>\x01<local>` form. -/
def convertAttrs (attrs : List ((Option String × String) × String)) :
    AttrMap :=
  attrs.foldl (fun out kv =>
    let key := match kv.1.1 with
      | some nsuri =>
        if nsuri = xmlnsXmlS then "xml:" ++ kv.1.2
        else nsuri ++ nsDelimS ++ kv.1.2
      | none => kv.1.2
    out.insert key kv.2) AttrMap.nil

/-- The accepted stream-header attributes. -/
structure HeaderFields where
  idv : Option String
  lang : Option String
  fromv : Option String
  tov : Option String
  versionv : Option String
deriving DecidableEq, Repr

def emptyHeaderFields : HeaderFields := ⟨none, none, none, none, none⟩

/-- The stream-header attribute loop: `id`/`from`/`to`/`version` in no
namespace, `lang` in the XML namespace; anything else is an invalid
header. -/
def headerAttrsFold :
    List ((Option String × String) × String) → HeaderFields →
      Except StreamError HeaderFields
  | [], acc => .ok acc
  | kv :: rest, acc =>
    let ns := kv.1.1.getD ""
    let ln := kv.1.2
    if ns = "" ∧ ln = "id" then
      headerAttrsFold rest { acc with idv := some kv.2 }
    else if ln = "lang" ∧ ns = xmlnsXmlS then
      headerAttrsFold rest { acc with lang := some kv.2 }
    else if ns = "" ∧ ln = "from" then
      headerAttrsFold rest { acc with fromv := some kv.2 }
    else if ns = "" ∧ ln = "to" then
      headerAttrsFold rest { acc with tov := some kv.2 }
    else if ns = "" ∧ ln = "version" then
      headerAttrsFold rest { acc with versionv := some kv.2 }
    else .error .InvalidStreamHeader

/-- Rust `char::is_ascii_whitespace`. -/
def isAsciiWhitespace (c : Char) : Bool :=
  c = ' ' || c = '\t' || c = '\n' || c = Char.ofNat 0xD || c = Char.ofNat 0xC

/-- `cdata.split_ascii_whitespace().next().is_some()`. -/
def hasNonWhitespace (s : String) : Bool :=
  s.data.any (fun c => !isAsciiWhitespace c)

/-- The namespace-stripping step of a non-header `StartElement`: keep the
real namespace (incrementing `non_streamns_depth`, with the source's
checked_add failure) unless it equals the default namespace at
stream-child depth. -/
def nsStrip (e : XMPPStream) (ns : String) :
    Except StreamError (Option String × Nat) :=
  if ns ≠ e.cfg.default_namespace ∨ e.non_streamns_depth > 0 then
    if e.non_streamns_depth + 1 ≤ usizeMax then
      .ok (some ns, e.non_streamns_depth + 1)
    else .error (.ParserError (.rx (.restrictedXml "nested too deep")))
  else .ok (none, e.non_streamns_depth)

/-- `XMPPStream::proc_event`.  Mirrors the `&mut self` source: the engine
state carries all mutations performed before an error return. -/
def procEvent (e : XMPPStream) (ev : RxmlEvent) :
    Except StreamError ProcResult × XMPPStream :=
  match ev, e.is_open, e.stanza with
  | .xmlDecl len, _, _ =>
    (.ok .needMore,
     { e with pending_bytes := accountBytes e.pending_bytes len })
  | .startElement len nsuri localname attrs, false, _ =>
    match nsuri with
    | none => (.error .InvalidStreamHeader, e)
    | some ns =>
      if ns ≠ e.cfg.stream_namespace ∨ localname ≠ e.cfg.stream_localname
      then (.error .InvalidStreamHeader, e)
      else
        match headerAttrsFold attrs emptyHeaderFields with
        | .error er => (.error er, e)
        | .ok hf =>
          (.ok (.event (.opened hf.lang hf.fromv hf.tov hf.idv
              hf.versionv)),
           { e with is_open := true
                    pending_bytes := accountBytes e.pending_bytes len })
  | .startElement len nsuri localname attrs, true, stOpt =>
    let converted := convertAttrs attrs
    let stripped : Except StreamError (Option String × Nat) :=
      match nsuri with
      | none => .ok (none, e.non_streamns_depth)
      | some ns => nsStrip e ns
    match stripped with
    | .error er => (.error er, e)
    | .ok nd =>
      let e1 := { e with non_streamns_depth := nd.2 }
      match stOpt with
      | some st =>
        match accumBytes e1.stanza_size len with
        | .error er => (.error er, e1)
        | .ok sz =>
          let e2 := { e1 with stanza_size := sz }
          let r := stanzaTag e2.heap st nd.1 localname converted
          (.ok .needMore, { e2 with heap := r.2.1, stanza := some r.2.2 })
      | none =>
        let rr := newElementOp e1.heap nd.1 localname converted
        let e2 := { e1 with heap := rr.1
                            stanza := some (Stanza.wrap rr.2)
                            stanza_size := 0 }
        match accumBytes e2.stanza_size len with
        | .error er => (.error er, e2)
        | .ok sz => (.ok .needMore, { e2 with stanza_size := sz })
  | .text len cdata, _, none =>
    let e1 := { e with pending_bytes := accountBytes e.pending_bytes len }
    if hasNonWhitespace cdata then (.error .TextAtStreamLevel, e1)
    else (.ok .needMore, e1)
  | .text len cdata, _, some st =>
    match accumBytes e.stanza_size len with
    | .error er => (.error er, e)
    | .ok sz =>
      let e1 := { e with stanza_size := sz }
      let r := stanzaText e1.heap st cdata
      (.ok .needMore, { e1 with heap := r.2.1 })
  | .endElement len, _, none =>
    (.ok (.event .closed),
     { e with pending_bytes := accountBytes e.pending_bytes len })
  | .endElement len, _, some st =>
    match accumBytes e.stanza_size len with
    | .error er => (.error er, e)
    | .ok sz =>
      let e1 := { e with stanza_size := sz
                         non_streamns_depth := e.non_streamns_depth - 1 }
      if st.isAtTop then
        let e2 := { e1 with stanza := none
                            pending_bytes := accountBytes e1.pending_bytes sz }
        let root := e2.heap.getEl st.root
        if (root.localname == e2.cfg.error_localname) &&
            (match root.nsuri with
             | some ns => ns == e2.cfg.stream_namespace
             | none => false) then
          (.ok (.event (.errorEv st)), e2)
        else (.ok (.event (.stanza st)), e2)
      else (.ok .needMore, { e1 with stanza := some st.up })

/-- `XMPPStream::feed` (poison check; `pending_bytes` checked_add; limit
check against `pending_bytes`; then hand the bytes to the parser). -/
def XMPPStream.feed (e : XMPPStream) (len : Nat) :
    Except StreamError Unit × XMPPStream :=
  match e.err with
  | some er => (.error er, e)
  | none =>
    if e.pending_bytes + len > usizeMax then (.error .StanzaLimitExceeded, e)
    else
      let e1 := { e with pending_bytes := e.pending_bytes + len }
      match e1.stanza_limit with
      | some v =>
        if v < e1.pending_bytes then (.error .StanzaLimitExceeded, e1)
        else (.ok (), { e1 with p := { e1.p with buf := e1.p.buf + len } })
      | none => (.ok (), { e1 with p := { e1.p with buf := e1.p.buf + len } })

/-- The loop body of `XMPPStream::read`; the fuel only bounds the number
of parser events consumed (each iteration pops one), so the canonical
fuel of `read` never runs out. -/
def readLoop : Nat → XMPPStream →
    Except StreamError (Option XmppEvent) × XMPPStream
  | 0, e => (.error (.ParserError .wouldBlock), e)
  | fuel + 1, e =>
    match e.p.events with
    | [] =>
      -- the parser signals WouldBlock
      match e.stanza_limit with
      | some limit =>
        if e.pending_bytes ≥ limit then
          (.error .StanzaLimitExceeded, e.poison .StanzaLimitExceeded)
        else (.error (.ParserError .wouldBlock), e)
      | none => (.error (.ParserError .wouldBlock), e)
    | .error ex :: rest =>
      let e1 := { e with p := { e.p with events := rest } }
      (.error (.ParserError (.rx ex)), e1.poison (.ParserError (.rx ex)))
    | .ok none :: rest =>
      (.ok none, { e with p := { e.p with events := rest } })
    | .ok (some ev) :: rest =>
      let e1 := { e with p := { e.p with events := rest } }
      match procEvent e1 ev with
      | (.error er, e2) => (.error er, e2)
      | (.ok .needMore, e2) => readLoop fuel e2
      | (.ok (.event xe), e2) => (.ok (some xe), e2)

/-- `XMPPStream::read`. -/
def XMPPStream.read (e : XMPPStream) :
    Except StreamError (Option XmppEvent) × XMPPStream :=
  match e.err with
  | some er => (.error er, e)
  | none => readLoop (e.p.events.length + 1) e

/-! ### C1: poisoning -/

/-- Parser events of a session that opens a `jabber:client` stream and
then sends the non-whitespace text `foobar` at stream level, followed by
the stream footer. -/
def c1Events : List (Except RxmlErr (Option RxmlEvent)) :=
  [.ok (some (.startElement 50 (some xmlnsStreams) "stream" [])),
   .ok (some (.text 6 "foobar")),
   .ok (some (.endElement 2))]

def c1e1 : XMPPStream := ((XMPPStream.new StreamConfig.c2s c1Events).feed 58).2

def c1e2 : XMPPStream := c1e1.read.2

def c1e3 : XMPPStream := c1e2.read.2

/-- C1, counterexample: non-whitespace stream-level text makes `read`
return `TextAtStreamLevel`, but the poison slot stays empty and the next
`read` happily returns `Closed` instead of a clone of the error — the
error is propagated with `?` from `proc_event` and never passes through
`poison`. -/
theorem text_at_stream_level_does_not_poison :
    c1e1.read.1 = .ok (some (.opened none none none none none)) ∧
    c1e2.read.1 = .error .TextAtStreamLevel ∧
    c1e3.err = none ∧
    c1e3.read.1 = .ok (some .closed) :=
  ⟨rfl, rfl, rfl, rfl⟩

/-- C1, amended: only two paths poison the engine — a non-WouldBlock
parser error during `read`, and a stanza-limit breach detected when the
parser reports WouldBlock; poisoning sets the slot, zeroes
`pending_bytes` and clears the parser buffer, and every later `feed` or
`read` returns a clone of the stored error with the state untouched.
(`InvalidStreamHeader`, `TextAtStreamLevel` and the feed-time limit check
return their error without poisoning.) -/
theorem poison_semantics (e1 e2 e3 : XMPPStream) (er : StreamError)
    (ex : RxmlErr) (rest : List (Except RxmlErr (Option RxmlEvent)))
    (limit n : Nat)
    (h1 : e1.err = some er)
    (h2e : e2.err = none) (h2v : e2.p.events = .error ex :: rest)
    (h3e : e3.err = none) (h3v : e3.p.events = [])
    (h3l : e3.stanza_limit = some limit)
    (h3p : limit ≤ e3.pending_bytes) :
    (e1.feed n).1 = .error er ∧ (e1.feed n).2 = e1 ∧
    e1.read.1 = .error er ∧ e1.read.2 = e1 ∧
    e2.read.1 = .error (.ParserError (.rx ex)) ∧
    e2.read.2.err = some (.ParserError (.rx ex)) ∧
    e2.read.2.pending_bytes = 0 ∧
    e2.read.2.p.buf = 0 ∧
    e3.read.1 = .error .StanzaLimitExceeded ∧
    e3.read.2.err = some .StanzaLimitExceeded ∧
    e3.read.2.pending_bytes = 0 ∧
    e3.read.2.p.buf = 0 := by
  refine ⟨?_, ?_, ?_, ?_, ?_, ?_, ?_, ?_, ?_, ?_, ?_, ?_⟩ <;>
    simp [XMPPStream.feed, XMPPStream.read, XMPPStream.poison, readLoop,
      h1, h2e, h2v, h3e, h3v, h3l, h3p]

def c1w1 : XMPPStream :=
  (XMPPStream.new StreamConfig.c2s []).poison .InvalidStreamHeader

def c1w2 : XMPPStream :=
  XMPPStream.new StreamConfig.c2s [.error (.other "duplicate attribute")]

def c1w3 : XMPPStream :=
  { XMPPStream.new StreamConfig.c2s [] with
      stanza_limit := some 10
      pending_bytes := 12 }

/-- Witness for the amended C1 theorem at three concrete engines. -/
theorem poison_semantics_witness :
    (c1w1.feed 5).1 = .error .InvalidStreamHeader ∧
    (c1w1.feed 5).2 = c1w1 ∧
    c1w1.read.1 = .error .InvalidStreamHeader ∧
    c1w1.read.2 = c1w1 ∧
    c1w2.read.1 = .error (.ParserError (.rx (.other "duplicate attribute"))) ∧
    c1w2.read.2.err = some (.ParserError (.rx (.other "duplicate attribute"))) ∧
    c1w2.read.2.pending_bytes = 0 ∧
    c1w2.read.2.p.buf = 0 ∧
    c1w3.read.1 = .error .StanzaLimitExceeded ∧
    c1w3.read.2.err = some .StanzaLimitExceeded ∧
    c1w3.read.2.pending_bytes = 0 ∧
    c1w3.read.2.p.buf = 0 :=
  poison_semantics c1w1 c1w2 c1w3 .InvalidStreamHeader
    (.other "duplicate attribute") [] 10 5
    rfl rfl rfl rfl rfl rfl (by decide)

/-! ### C9: the stream-header scenario -/

def c9decl : String := "<?xml version='1.0'?>"

def c9hdr : String :=
  "<stream:stream id='foobar2342' from='capulet.example' to='montague.example' xml:lang='en' xmlns:stream='http://etherx.jabber.org/streams' xmlns='jabber:server' version='1.0'>"

def c9iq : String := "<iq/>"

def c9data : String := c9decl ++ c9hdr ++ c9iq

/-- The parse of `c9data`: the XML declaration, the stream header (its
five attributes resolved, the `xmlns`/`xmlns:stream` declarations consumed
by the namespace resolver), and the `<iq/>` start tag, each event covering
its source bytes. -/
def c9Events : List (Except RxmlErr (Option RxmlEvent)) :=
  [.ok (some (.xmlDecl c9decl.length)),
   .ok (some (.startElement c9hdr.length (some xmlnsStreams) "stream"
     [((none, "id"), "foobar2342"), ((none, "from"), "capulet.example"),
      ((none, "to"), "montague.example"), ((some xmlnsXmlS, "lang"), "en"),
      ((none, "version"), "1.0")])),
   .ok (some (.startElement c9iq.length (some "jabber:server") "iq" []))]

def c9run : Except StreamError Unit × XMPPStream :=
  (XMPPStream.new StreamConfig.s2s c9Events).feed c9data.length

set_option maxRecDepth 8192 in
/-- C9: feeding the spec's stream-header bytes to a fresh s2s engine and
reading yields `Opened{id: foobar2342, from: capulet.example,
to: montague.example, lang: en, version: 1.0}`, and immediately afterwards
`pending_bytes = 5` (the unconsumed `<iq/>` bytes). -/
theorem stream_header_scenario :
    c9run.1 = .ok () ∧
    c9run.2.read.1 = .ok (some (.opened (some "en")
      (some "capulet.example") (some "montague.example")
      (some "foobar2342") (some "1.0"))) ∧
    c9run.2.read.2.pending_bytes = 5 ∧
    c9iq.length = 5 :=
  ⟨rfl, rfl, rfl, rfl⟩

/-! ### C3: namespace stripping -/

theorem tagOp_child_fields (h : Heap) (p : Nat) (ns : Option String)
    (name : String) (attr : AttrMap) :
    ((tagOp h p ns name attr).1.getEl h.size).nsuri = ns ∧
    ((tagOp h p ns name attr).1.getEl h.size).localname = name := by
  simp only [tagOp]
  by_cases hp : p = h.size
  · subst hp
    rw [Heap.getEl_set_self _ _ _ (by rw [Heap.size_alloc]; omega),
      Heap.getEl_alloc_new]
    exact ⟨rfl, rfl⟩
  · rw [Heap.getEl_set_ne _ _ _ _ (fun hc => hp hc.symm),
      Heap.getEl_alloc_new]
    exact ⟨rfl, rfl⟩

/-- Parser events of the C3 scenario: inside a `jabber:client` stream,
`<message><forwarded xmlns='carbons'><message xmlns='jabber:client'/></forwarded></message>`. -/
def c3Events : List (Except RxmlErr (Option RxmlEvent)) :=
  [.ok (some (.startElement 60 (some xmlnsStreams) "stream" [])),
   .ok (some (.startElement 9 (some "jabber:client") "message" [])),
   .ok (some (.startElement 25 (some "carbons") "forwarded" [])),
   .ok (some (.startElement 31 (some "jabber:client") "message" [])),
   .ok (some (.endElement 10)),
   .ok (some (.endElement 12)),
   .ok (some (.endElement 10))]

def c3e1 : XMPPStream := ((XMPPStream.new StreamConfig.c2s c3Events).feed 157).2

def c3r2 : Except StreamError (Option XmppEvent) × XMPPStream := c3e1.read

def c3r3 : Except StreamError (Option XmppEvent) × XMPPStream := c3r2.2.read

set_option maxRecDepth 8192 in
/-- C3: on every `StartElement` of a stanza under construction the stored
`nsuri` is `None` exactly when the element's namespace equals the
configured default namespace and `non_streamns_depth = 0`; otherwise the
real namespace is stored and the depth counter is incremented.  In the
concrete carbons scenario the inner `message` therefore carries
`jabber:client` explicitly while the outer `message` has no stored
namespace. -/
theorem ns_stripping_rule (e : XMPPStream) (len : Nat) (ns name : String)
    (attrs : List ((Option String × String) × String))
    (hopen : e.is_open = true)
    (hdepth : e.non_streamns_depth < usizeMax)
    (hsz : e.stanza_size + len ≤ usizeMax)
    (hst : ∀ st, e.stanza = some st →
      (derefOn e.heap st.cursor st.root).isSome = true) :
    (procEvent e (.startElement len (some ns) name attrs)).1 =
      .ok .needMore ∧
    (procEvent e (.startElement len (some ns) name attrs)).2.heap.size =
      e.heap.size + 1 ∧
    ((procEvent e (.startElement len (some ns) name attrs)).2.heap.getEl
      e.heap.size).localname = name ∧
    (((procEvent e (.startElement len (some ns) name attrs)).2.heap.getEl
        e.heap.size).nsuri = none ↔
      (ns = e.cfg.default_namespace ∧ e.non_streamns_depth = 0)) ∧
    (¬(ns = e.cfg.default_namespace ∧ e.non_streamns_depth = 0) →
      ((procEvent e (.startElement len (some ns) name attrs)).2.heap.getEl
        e.heap.size).nsuri = some ns ∧
      (procEvent e (.startElement len (some ns) name
        attrs)).2.non_streamns_depth = e.non_streamns_depth + 1) ∧
    ((ns = e.cfg.default_namespace ∧ e.non_streamns_depth = 0) →
      (procEvent e (.startElement len (some ns) name
        attrs)).2.non_streamns_depth = e.non_streamns_depth) ∧
    c3r3.1 = .ok (some (.stanza ⟨0, []⟩)) ∧
    (c3r3.2.heap.getEl 0).nsuri = none ∧
    (c3r3.2.heap.getEl 0).localname = "message" ∧
    (c3r3.2.heap.getEl 1).nsuri = some "carbons" ∧
    (c3r3.2.heap.getEl 2).nsuri = some "jabber:client" ∧
    (c3r3.2.heap.getEl 2).localname = "message" ∧
    c3r3.2.pending_bytes = 0 := by
  have hstrip : nsStrip e ns =
      (if ns = e.cfg.default_namespace ∧ e.non_streamns_depth = 0 then
        .ok (none, e.non_streamns_depth)
      else .ok (some ns, e.non_streamns_depth + 1)) := by
    rw [nsStrip]
    by_cases hcond : ns = e.cfg.default_namespace ∧
        e.non_streamns_depth = 0
    · have hneg : ¬(ns ≠ e.cfg.default_namespace ∨
          e.non_streamns_depth > 0) := by
        push_neg
        exact ⟨hcond.1, Nat.le_of_eq hcond.2⟩
      rw [if_neg hneg, if_pos hcond]
    · have hpos : ns ≠ e.cfg.default_namespace ∨
          e.non_streamns_depth > 0 := by
        by_cases hq : ns = e.cfg.default_namespace
        · rcases Nat.eq_zero_or_pos e.non_streamns_depth with h0 | h0
          · exact absurd ⟨hq, h0⟩ hcond
          · exact Or.inr h0
        · exact Or.inl hq
      rw [if_pos hpos, if_neg hcond, if_pos (by omega)]
  have main : (procEvent e (.startElement len (some ns) name attrs)).1 =
      .ok .needMore ∧
      (procEvent e (.startElement len (some ns) name attrs)).2.heap.size =
        e.heap.size + 1 ∧
      ((procEvent e (.startElement len (some ns) name attrs)).2.heap.getEl
        e.heap.size).localname = name ∧
      ((procEvent e (.startElement len (some ns) name attrs)).2.heap.getEl
        e.heap.size).nsuri =
        (if ns = e.cfg.default_namespace ∧ e.non_streamns_depth = 0 then
          none else some ns) ∧
      (procEvent e (.startElement len (some ns) name
        attrs)).2.non_streamns_depth =
        (if ns = e.cfg.default_namespace ∧ e.non_streamns_depth = 0 then
          e.non_streamns_depth else e.non_streamns_depth + 1) := by
    cases hstz : e.stanza with
    | none =>
      simp only [procEvent, hopen, hstz, hstrip]
      by_cases hcond : ns = e.cfg.default_namespace ∧
          e.non_streamns_depth = 0 <;>
        simp only [hcond, if_pos, if_neg, if_true, if_false] <;>
        simp [accumBytes, newElementOp, Heap.getEl_alloc_new,
          Heap.size_alloc, Element.rawNewWithAttr,
          Nat.le_trans (Nat.le_add_left len e.stanza_size) hsz, hcond]
    | some st =>
      obtain ⟨parent, hpar⟩ :=
        Option.isSome_iff_exists.mp (hst st hstz)
      simp only [procEvent, hopen, hstz, hstrip]
      by_cases hcond : ns = e.cfg.default_namespace ∧
          e.non_streamns_depth = 0 <;>
        simp only [hcond, if_true, if_false] <;>
        simp [accumBytes, hsz, stanzaTag, hpar, tagOp_size,
          (tagOp_child_fields e.heap parent _ name (convertAttrs attrs)).1,
          (tagOp_child_fields e.heap parent _ name (convertAttrs attrs)).2,
          hcond]
  obtain ⟨m1, m2, m3, m4, m5⟩ := main
  refine ⟨m1, m2, m3, ?_, ?_, ?_, rfl, rfl, rfl, rfl, rfl, rfl, rfl⟩
  · rw [m4]
    by_cases hcond : ns = e.cfg.default_namespace ∧
        e.non_streamns_depth = 0
    · simp [hcond]
    · simp [hcond]
  · intro hcond
    rw [m4, m5, if_neg hcond, if_neg hcond]
    exact ⟨rfl, rfl⟩
  · intro hcond
    rw [m5, if_pos hcond]

set_option maxRecDepth 8192 in
/-- Witness for C3 at the engine state right after the C3 stream header
was read (open stream, no stanza in progress). -/
theorem ns_stripping_rule_witness :
    (procEvent c3r2.2 (.startElement 9 (some "jabber:client") "message"
      [])).1 = .ok .needMore ∧
    (procEvent c3r2.2 (.startElement 9 (some "jabber:client") "message"
      [])).2.heap.size = c3r2.2.heap.size + 1 ∧
    ((procEvent c3r2.2 (.startElement 9 (some "jabber:client") "message"
      [])).2.heap.getEl c3r2.2.heap.size).localname = "message" ∧
    (((procEvent c3r2.2 (.startElement 9 (some "jabber:client") "message"
        [])).2.heap.getEl c3r2.2.heap.size).nsuri = none ↔
      ("jabber:client" = c3r2.2.cfg.default_namespace ∧
        c3r2.2.non_streamns_depth = 0)) ∧
    (¬("jabber:client" = c3r2.2.cfg.default_namespace ∧
        c3r2.2.non_streamns_depth = 0) →
      ((procEvent c3r2.2 (.startElement 9 (some "jabber:client") "message"
        [])).2.heap.getEl c3r2.2.heap.size).nsuri =
          some "jabber:client" ∧
      (procEvent c3r2.2 (.startElement 9 (some "jabber:client") "message"
        [])).2.non_streamns_depth = c3r2.2.non_streamns_depth + 1) ∧
    (("jabber:client" = c3r2.2.cfg.default_namespace ∧
        c3r2.2.non_streamns_depth = 0) →
      (procEvent c3r2.2 (.startElement 9 (some "jabber:client") "message"
        [])).2.non_streamns_depth = c3r2.2.non_streamns_depth) ∧
    c3r3.1 = .ok (some (.stanza ⟨0, []⟩)) ∧
    (c3r3.2.heap.getEl 0).nsuri = none ∧
    (c3r3.2.heap.getEl 0).localname = "message" ∧
    (c3r3.2.heap.getEl 1).nsuri = some "carbons" ∧
    (c3r3.2.heap.getEl 2).nsuri = some "jabber:client" ∧
    (c3r3.2.heap.getEl 2).localname = "message" ∧
    c3r3.2.pending_bytes = 0 :=
  ns_stripping_rule c3r2.2 9 "jabber:client" "message" []
    (by rfl) (by decide) (by decide)
    (by intro st hc
        have hn : c3r2.2.stanza = none := by rfl
        rw [hn] at hc
        exact Option.noConfusion hc)

end ProsodyStanza
